import Mathlib

/-!
# Verification of the overpass road-geometry engine

Shallow embedding of the numerical core of `overpass_work.py` (and the
shared Haversine routine of `xml2csv.py`):

* `Calculate_distance` — the Haversine distance (source lines 1558-1577),
  with Python's `math.atan2` modelled by `atan2` below;
* `Calculate_new_node` — linear interpolation in degree space
  (source lines 1611-1618);
* `Create_new_nodes_on_road` — the per-road resampler
  (source lines 1621-1654), embedded with explicit loop fuel for the
  unbounded `while` loop and with the global `generated_node_num`
  counter threaded through as explicit state;
* `Isincell` / `Cell_data_strip` — the cell-membership test
  (source lines 1461-1481, 1533-1555), over exact rationals
  (the source compares `Decimal`/float values produced from decimal
  literals; cells are modelled as their parsed number list, the string
  splitting itself being I/O plumbing);
* the row/cell streaming loop of `SecondQ` (source lines 1368-1457),
  embedded as a fold over data rows, per cell, with the state that the
  source keeps across rows *and across cells* (`previous_way`,
  `previous_node`, `previous_coordinates`, `road_spans_cell`,
  `road_segment`).  The running `total_road_length` accumulation
  `total += Calculate_distance(prev, cur)` is modelled by recording the
  list of accumulated hops; `SecondQtotal` sums the Haversine distances
  of that list, which is the same running sum.

Python floats are modelled as real numbers.  `round(x, epsilon)` with
`epsilon = 6` (imported by the source from a `constants` module that is
not part of the repository snapshot; the spec fixes the precision as
6 decimal places) is modelled by `round6`, rounding to the nearest
multiple of 10⁻⁶.  Mathlib's `round` rounds half-integers up while
Python rounds them to even; every concrete value this development
rounds is proved to lie strictly inside an interval between two
half-integer thresholds, where the two conventions agree.
-/

open Real

namespace Overpass

/-- Mean Earth radius in km.  The source imports `radius_of_earth` from the
missing `constants` module; modelled from the spec (`R = 6371`), matching the
inline constant of `xml2csv.py`. -/
def radius_of_earth : ℝ := 6371

/-- Python's `math.atan2 y x`. -/
noncomputable def atan2 (y x : ℝ) : ℝ :=
  if 0 < x then arctan (y / x)
  else if x = 0 then (if 0 < y then π / 2 else if y < 0 then -(π / 2) else 0)
  else if 0 ≤ y then arctan (y / x) + π else arctan (y / x) - π

/-- `round(x, 6)`: round to 6 decimal places.  The source rounds every
computed distance with `round(Calculate_distance(...), epsilon)`; `epsilon`
comes from the missing `constants` module and is modelled from the spec
("rounded to a fixed decimal precision, e.g. 6 places"). -/
noncomputable def round6 (x : ℝ) : ℝ := (round (x * 1000000) : ℤ) / 1000000

/-- Haversine distance of `overpass_work.py` lines 1558-1577 (the incoming
coordinate pairs are already in radians; callers convert).  `xml2csv.py`
lines 232-253 is the same formula without the final `abs`. -/
noncomputable def Calculate_distance (coords_set1 coords_set2 : ℝ × ℝ) : ℝ :=
  let square_of_chord :=
    Real.sin (|coords_set2.1 - coords_set1.1| / 2) ^ 2 +
      Real.cos coords_set2.1 * Real.cos coords_set1.1 *
        Real.sin (|coords_set2.2 - coords_set1.2| / 2) ^ 2
  let angular_distance :=
    2 * atan2 (Real.sqrt square_of_chord) (Real.sqrt (1 - square_of_chord))
  |radius_of_earth * angular_distance|

/-- Degrees-to-radians conversion applied by the source
(`[math.radians(float(x)) for x in ...]`) to a `(lat, lon)` pair. -/
noncomputable def radiansP (p : ℝ × ℝ) : ℝ × ℝ := (p.1 * π / 180, p.2 * π / 180)

/-- Radians-to-degrees (`math.degrees`). -/
noncomputable def degreesF (x : ℝ) : ℝ := x * 180 / π

/-- `Calculate_new_node` of `overpass_work.py` lines 1611-1618: linear
interpolation in degree space, at ratio `distance / distance_bt_points`
from `end_set` toward `start_set` (both given in radians). -/
noncomputable def Calculate_new_node (start_set end_set : ℝ × ℝ)
    (distance distance_bt_points : ℝ) : ℝ × ℝ :=
  let lat_start := degreesF start_set.1
  let lon_start := degreesF start_set.2
  let lat_end := degreesF end_set.1
  let lon_end := degreesF end_set.2
  (lat_end + distance / distance_bt_points * (lat_start - lat_end),
   lon_end + distance / distance_bt_points * (lon_start - lon_end))

/-- One data row `[way, node, lat, lon]` of the waypoint CSV, as consumed by
`Create_new_nodes_on_road` and `SecondQ`.  Coordinates are modelled as real
numbers (the source mixes strings and floats in the same list; row equality
on coordinates is value equality here). -/
@[ext] structure Node where
  way : String
  nid : String
  lat : ℝ
  lon : ℝ

/-- Haversine distance between two rows after the source's
degree-to-radian conversion of `cur_node[-2:]` and `end_node[2:4]`. -/
noncomputable def nodeDist (p q : Node) : ℝ :=
  Calculate_distance (radiansP (p.lat, p.lon)) (radiansP (q.lat, q.lon))

open Classical in
/-- `if cur_node not in updated_nodes: updated_nodes.append(cur_node)`. -/
noncomputable def appendIfNew (upd : List Node) (n : Node) : List Node :=
  if n ∈ upd then upd else upd ++ [n]

/-- The synthetic node created in the body of the resampler's `while` loop:
`new_node = copy(cur_node)` with node id `"Generated Node %d" % counter` and
coordinates `Calculate_new_node(end_coordinates, cur_coordinates,
min_distance, distance)`. -/
noncomputable def synthNode (endn cur : Node) (min_distance : ℝ) (cnt : ℕ) : Node :=
  let coords := Calculate_new_node (radiansP (endn.lat, endn.lon))
    (radiansP (cur.lat, cur.lon)) min_distance (round6 (nodeDist cur endn))
  { way := cur.way, nid := "Generated Node " ++ toString cnt,
    lat := coords.1, lon := coords.2 }

/-- Exit of the `while` loop for one `(cur, end)` pair: the trailing
`if distance < min_distance ... elif distance == min_distance ...` of
lines 1642-1649.  Returns the updated cursor, output list and counter. -/
noncomputable def pairExit (min_distance : ℝ) (endn cur : Node) (upd : List Node)
    (cnt : ℕ) : Node × List Node × ℕ :=
  if round6 (nodeDist cur endn) < min_distance then (cur, appendIfNew upd cur, cnt)
  else (endn, appendIfNew upd cur ++ [endn], cnt)

/-- The `while distance > min_distance` loop of lines 1630-1641, with
explicit fuel bounding the number of iterations (the source loop has no
such bound and need not terminate). -/
noncomputable def pairLoop (min_distance : ℝ) (endn : Node) :
    ℕ → Node → List Node → ℕ → Option (Node × List Node × ℕ)
  | 0, cur, upd, cnt =>
      if round6 (nodeDist cur endn) > min_distance then none
      else some (pairExit min_distance endn cur upd cnt)
  | fuel + 1, cur, upd, cnt =>
      if round6 (nodeDist cur endn) > min_distance then
        pairLoop min_distance endn fuel (synthNode endn cur min_distance (cnt + 1))
          (appendIfNew upd cur) (cnt + 1)
      else some (pairExit min_distance endn cur upd cnt)

/-- The `for i in nodes_on_road[1:]` loop of lines 1625-1649. -/
noncomputable def resampleGo (fuel : ℕ) (min_distance : ℝ) :
    Node → List Node → ℕ → List Node → Option (Node × List Node × ℕ)
  | cur, upd, cnt, [] => some (cur, upd, cnt)
  | cur, upd, cnt, endn :: rest =>
      (pairLoop min_distance endn fuel cur upd cnt).bind fun s =>
        resampleGo fuel min_distance s.1 s.2.1 s.2.2 rest

open Classical in
/-- `Create_new_nodes_on_road` of lines 1621-1654.  `cnt` threads the
source's global `generated_node_num`; the result is the produced node list
together with the updated counter, or `none` if the fuel does not cover the
source's (unbounded) `while` iterations.  The empty road raises
`IndexError` on `nodes_on_road[0]` in the source, modelled as `none`. -/
noncomputable def Create_new_nodes_on_road (fuel : ℕ) (nodes_on_road : List Node)
    (min_distance : ℝ) (cnt : ℕ) : Option (List Node × ℕ) :=
  match nodes_on_road with
  | [] => none
  | n0 :: rest =>
      (resampleGo fuel min_distance n0 [] cnt rest).map fun s =>
        (if (n0 :: rest).getLast (by simp) ∈ s.2.1 then s.2.1
         else s.2.1 ++ [(n0 :: rest).getLast (by simp)], s.2.2)

/-! ## Cell partitioning (`SecondQ`, `Isincell`, `Cell_data_strip`) -/

/-- A CSV data row `way, node, lat, lon` as read inside `SecondQ`
(lines 1411, 1415): coordinates as exact rationals. -/
structure Row where
  way : String
  nid : String
  lat : ℚ
  lon : ℚ
deriving DecidableEq

/-- A cell, as the list of numbers `Cell_data_strip` parses out of the
cell's textual form (the string splitting / `float()` calls of
lines 1540-1545 are I/O plumbing; the numeric content is kept). -/
abbrev Cell := List ℚ

/-- Python `min` over a nonempty list (`min([])` raises; the partitioner
only ever calls it on the two-element lists of a four-number cell). -/
def listMin (l : List ℚ) : ℚ :=
  match l with
  | [] => 0
  | h :: t => t.foldl min h

/-- Python `max` over a nonempty list. -/
def listMax (l : List ℚ) : ℚ :=
  match l with
  | [] => 0
  | h :: t => t.foldl max h

/-- `Cell_data_strip` of lines 1533-1555: split the parsed cell numbers
into the even-indexed (latitude) and odd-indexed (longitude) lists. -/
def Cell_data_strip : Cell → List ℚ × List ℚ
  | [] => ([], [])
  | [a] => ([a], [])
  | a :: b :: rest =>
      let p := Cell_data_strip rest
      (a :: p.1, b :: p.2)

/-- `Isincell` of lines 1461-1481: strict-interior test against the min/max
of the parsed latitude and longitude lists. -/
def Isincell (node : ℚ × ℚ) (cell : Cell) : Bool :=
  let lat_list := (Cell_data_strip cell).1
  let lon_list := (Cell_data_strip cell).2
  let min_lat := listMin lat_list
  let min_lon := listMin lon_list
  let max_lat := listMax lat_list
  let max_lon := listMax lon_list
  decide (node.1 > min_lat) && decide (node.1 < max_lat) &&
    decide (node.2 > min_lon) && decide (node.2 < max_lon)

/-- An output row `[cell id/bbox, way, node, lat, lon]` written by
`SecondQ` (line 1416/1422). -/
structure OutRow where
  cellLabel : String
  way : String
  nid : String
  lat : ℚ
  lon : ℚ
deriving DecidableEq

/-- The loop state `SecondQ` initializes *outside* its cell loop
(lines 1372-1379) and therefore carries across rows and across cells. -/
structure QState where
  prevWay : Option String
  prevNode : Option String
  prevCoords : Option (ℚ × ℚ)
  road_spans_cell : Bool
  road_segment : ℕ
deriving DecidableEq

/-- The fresh state of lines 1372-1379 (`previous_* = None`,
`road_spans_cell = False`, `road_segment = 0`). -/
def initQState : QState := ⟨none, none, none, false, 0⟩

/-- Processing of one data row inside `SecondQ`'s reader loop
(lines 1411-1446).  Returns the next state, the emitted output row (if
any), and the hop accumulated into `total_road_length` (if any); the hop is
recorded as the degree-coordinate pair the source converts to radians and
feeds to `Calculate_distance`. -/
def SecondQstep (cell : Cell) (label : String) (st : QState) (row : Row) :
    QState × Option OutRow × Option ((ℚ × ℚ) × (ℚ × ℚ)) :=
  -- line 1413-1414: drop the spans flag if the road changed
  let spans0 := if st.road_spans_cell ∧ ¬st.prevWay = some row.way then false
                else st.road_spans_cell
  let cur := (row.lat, row.lon)
  -- whether the previous point was in the cell (`Isincell(previous_coordinates, cell)`;
  -- with `previous_coordinates = None` the source would raise, but each such
  -- use is guarded by `way == previous_way`, which fails on the first row)
  let prevIn := match st.prevCoords with
                | some pc => Isincell pc cell
                | none => false
  if Isincell cur cell ∧ ¬st.prevNode = some row.nid then
    -- lines 1419-1434: emit (suffixing column 1, the way column, when the
    -- road spans the cell), and accumulate the in-cell-to-in-cell hop
    let outway := if spans0 then row.way ++ "_segment_" ++ toString st.road_segment
                  else row.way
    let hop := if st.prevWay = some row.way ∧ prevIn = true then
                 (st.prevCoords.map fun pc => (pc, cur))
               else none
    (⟨some row.way, some row.nid, some cur, spans0, st.road_segment⟩,
     some ⟨label, outway, row.nid, row.lat, row.lon⟩, hop)
  else
    -- lines 1435-1442: crossing bookkeeping
    let next :=
      if st.prevWay = some row.way ∧ prevIn = true then
        (true, st.road_segment + 1)
      else if ¬st.prevWay = some row.way then (false, 0)
      else (spans0, st.road_segment)
    (⟨some row.way, some row.nid, some cur, next.1, next.2⟩, none, none)

/-- The reader loop of one cell pass (lines 1395-1446), over the data rows
of the filter file. -/
def SecondQpass (cell : Cell) (label : String) :
    QState → List Row → QState × List OutRow × List ((ℚ × ℚ) × (ℚ × ℚ))
  | st, [] => (st, [], [])
  | st, row :: rest =>
      let s := SecondQstep cell label st row
      let t := SecondQpass cell label s.1 rest
      (t.1, s.2.1.toList ++ t.2.1, s.2.2.toList ++ t.2.2)

/-- The cell loop of `SecondQ` (lines 1380-1455): each cell re-reads the
same row table, with the row state carried over from the previous cell's
pass; `cell_id` increments per cell and labels rows as
`<cell text>_<cell_id>`.  Returns all emitted rows plus, per cell, the
label and accumulated hop list. -/
def SecondQcells (rows : List Row) :
    List (Cell × String) → ℕ → QState →
      List OutRow × List (String × List ((ℚ × ℚ) × (ℚ × ℚ)))
  | [], _, _ => ([], [])
  | (cell, txt) :: rest, cell_id, st =>
      let label := txt ++ "_" ++ toString cell_id
      let p := SecondQpass cell label st rows
      let r := SecondQcells rows rest (cell_id + 1) p.1
      (p.2.1 ++ r.1, (label, p.2.2) :: r.2)

/-- `SecondQ` entry: fresh state, `cell_id = 0`. -/
def SecondQ (rows : List Row) (cells : List (Cell × String)) :
    List OutRow × List (String × List ((ℚ × ℚ) × (ℚ × ℚ))) :=
  SecondQcells rows cells 0 initQState

/-- A rational degree coordinate pair, converted to radians as the source
does before calling `Calculate_distance` (lines 1426-1427). -/
noncomputable def ratRad (p : ℚ × ℚ) : ℝ × ℝ := radiansP ((p.1 : ℝ), (p.2 : ℝ))

/-- The `total_road_length` of a pass: the sum of the Haversine distances
of the accumulated hops (the source keeps the running sum directly;
summing the recorded hop list is the same number). -/
noncomputable def hopSum (hops : List ((ℚ × ℚ) × (ℚ × ℚ))) : ℝ :=
  (hops.map fun pq => Calculate_distance (ratRad pq.1) (ratRad pq.2)).sum

/-! ## Basic facts about the distance function -/

lemma atan2_of_pos {y x : ℝ} (hx : 0 < x) : atan2 y x = arctan (y / x) :=
  if_pos hx

/-- Haversine of coordinate pairs with equal latitudes and equal
longitudes is zero. -/
lemma Calculate_distance_self (a : ℝ × ℝ) : Calculate_distance a a = 0 := by
  simp [Calculate_distance, atan2, arctan_zero]

/-- North-pole degeneracy: both points at latitude `π/2` (in radians), any
longitudes, give Haversine distance 0 because `cos (π/2) = 0` wipes out the
longitude term. -/
lemma Calculate_distance_pole (l₁ l₂ : ℝ) :
    Calculate_distance (π / 2, l₁) (π / 2, l₂) = 0 := by
  simp [Calculate_distance, atan2, Real.cos_pi_div_two, arctan_zero]

/-! ## Claims about `Isincell` (C10) -/

/-- **C10.** Cell inclusion is a strict-interior test: for a four-number
cell `[a, b, c, d]` (latitudes `a, c`, longitudes `b, d`), `Isincell`
holds exactly when `min < lat < max` and `min < lon < max` strictly; and
for the cell `(0,0,1,1)`: `(0.5, 0.5)` is inside, the edge point
`(0, 0.5)` is outside, and `(1.5, 1.5)` is outside. -/
theorem C10_in_cell_strict_interior :
    (∀ x y a b c d : ℚ, (Isincell (x, y) [a, b, c, d] = true ↔
      (min a c < x ∧ x < max a c ∧ min b d < y ∧ y < max b d))) ∧
    Isincell (1/2, 1/2) [0, 0, 1, 1] = true ∧
    Isincell (0, 1/2) [0, 0, 1, 1] = false ∧
    Isincell (3/2, 3/2) [0, 0, 1, 1] = false := by
  refine ⟨fun x y a b c d => ?_,
    by norm_num [Isincell, Cell_data_strip, listMin, listMax],
    by norm_num [Isincell, Cell_data_strip, listMin, listMax],
    by norm_num [Isincell, Cell_data_strip, listMin, listMax]⟩
  simp [Isincell, Cell_data_strip, listMin, listMax, and_assoc]

/-! ## Claims about `Calculate_distance` (C6) -/

/-- **C6 (counterexample).** The claim "`distance(a, b) = 0` iff `a` and
`b` have equal coordinates" (together with symmetry and nonnegativity)
is false: both points at the north pole (latitude `π/2`) with different
longitudes are at Haversine distance 0. -/
theorem C6_counterexample :
    ¬ (∀ a b : ℝ × ℝ,
        Calculate_distance a b = Calculate_distance b a ∧
        0 ≤ Calculate_distance a b ∧
        (Calculate_distance a b = 0 ↔ a = b)) := by
  intro h
  have h3 := (h (π / 2, 0) (π / 2, 1)).2.2.mp (Calculate_distance_pole 0 1)
  have : (0 : ℝ) = 1 := congrArg Prod.snd h3
  norm_num at this

/-- **C6 (amended).** `Calculate_distance` is symmetric and nonnegative,
and equal coordinates give distance 0; but distance 0 does not imply equal
coordinates (the zero set also contains e.g. pairs of polar points). -/
theorem C6_distance_symm_nonneg_diag (a b : ℝ × ℝ) :
    Calculate_distance a b = Calculate_distance b a ∧
    0 ≤ Calculate_distance a b ∧
    (a = b → Calculate_distance a b = 0) := by
  refine ⟨?_, abs_nonneg _, fun h => h ▸ Calculate_distance_self a⟩
  show |radius_of_earth * _| = |radius_of_earth * _|
  rw [abs_sub_comm b.1 a.1, abs_sub_comm b.2 a.2,
    mul_comm (Real.cos b.1) (Real.cos a.1)]

/-- Witness for C6: the symmetry/diagonal theorem applied at the origin
pair. -/
theorem C6_witness : Calculate_distance (0, 0) (0, 0) = 0 :=
  (C6_distance_symm_nonneg_diag (0, 0) (0, 0)).2.2 rfl

/-! ## Claims about the partitioner's segment tagging and state (C4, C9) -/

/-- A 10×10 test cell. -/
def cellTen : Cell := [0, 0, 10, 10]

/-- A single road that is inside `cellTen`, leaves it, re-enters, leaves
again and re-enters again (two excursions). -/
def rowsC4 : List Row :=
  [⟨"W", "na", 5, 5⟩, ⟨"W", "nb", 50, 50⟩, ⟨"W", "nc", 5, 2⟩,
   ⟨"W", "nd", 50, 60⟩, ⟨"W", "ne", 2, 5⟩]

/-- **C4 (counterexample).** For a road that exits and re-enters the same
cell twice, the partitioner does *not* produce node ids suffixed
`_segment_0` and `_segment_1`: the emitted node-id column is left
untouched (the suffix actually lands on the way column, with indices 1
and 2). -/
theorem C4_counterexample :
    ((SecondQ rowsC4 [(cellTen, "cell")]).1.map OutRow.nid) ≠
      ["na", "nc_segment_0", "ne_segment_1"] := by decide

/-- **C4 (amended).** In the partitioner's per-row loop the
`_segment_<segment_index>` suffix is appended to the emitted *way* column
(`row_to_write[1]`), not the node id; a road that exits and re-enters the
same cell twice produces the way-column suffix groups `_segment_1` and
`_segment_2` (the first inside run is unsuffixed), with node ids
unchanged. -/
theorem C4_segment_suffix_on_way_column :
    ((SecondQ rowsC4 [(cellTen, "cell")]).1.map OutRow.way) =
      ["W", "W_segment_1", "W_segment_2"] ∧
    ((SecondQ rowsC4 [(cellTen, "cell")]).1.map OutRow.nid) =
      ["na", "nc", "ne"] := by
  constructor <;> decide

/-- A road with one in-cell point followed by one out-of-cell point: the
final row leaves `road_spans_cell = true`, `road_segment = 1` in the
carried state. -/
def rowsC9 : List Row := [⟨"W", "n1", 5, 5⟩, ⟨"W", "n2", 50, 50⟩]

/-- **C9.** Per-cell independence fails: processing the same cell twice in
one `SecondQ` run emits `W_segment_1` for the second pass's first row
(state `road_spans_cell`/`road_segment`/`previous_*` carries over from the
first pass), while the standalone single-cell run emits the bare way
`W`. -/
theorem C9_state_carries_across_cells :
    ((SecondQ rowsC9 [(cellTen, "cell"), (cellTen, "cell")]).1.map OutRow.way) =
      ["W", "W_segment_1"] ∧
    ((SecondQ rowsC9 [(cellTen, "cell")]).1.map OutRow.way) = ["W"] := by
  constructor <;> decide

/-! ## Length conservation in the partitioner (C7) -/

/-- The consecutive-pair hop list of a row sequence. -/
def consecHops (rows : List Row) : List ((ℚ × ℚ) × (ℚ × ℚ)) :=
  (rows.zip rows.tail).map fun pq =>
    ((pq.1.lat, pq.1.lon), (pq.2.lat, pq.2.lon))

lemma pass_hops_all_in (cell : Cell) (label : String) (w : String) :
    ∀ (rows : List Row) (prev : Row),
      (∀ r ∈ rows, r.way = w ∧ Isincell (r.lat, r.lon) cell = true) →
      prev.way = w → Isincell (prev.lat, prev.lon) cell = true →
      List.Chain' (fun a b => a.nid ≠ b.nid) (prev :: rows) →
      ∀ spans seg,
        (SecondQpass cell label
            ⟨some w, some prev.nid, some (prev.lat, prev.lon), spans, seg⟩
            rows).2.2 = consecHops (prev :: rows)
  | [], prev, _, _, _, _, spans, seg => by
      simp [SecondQpass, consecHops]
  | r :: rest, prev, hall, hpw, hpin, hchain, spans, seg => by
      have hrw : r.way = w := (hall r (by simp)).1
      have hrin : Isincell (r.lat, r.lon) cell = true := (hall r (by simp)).2
      have hnid : prev.nid ≠ r.nid := (List.chain'_cons.mp hchain).1
      have hstep : SecondQstep cell label
          ⟨some w, some prev.nid, some (prev.lat, prev.lon), spans, seg⟩ r =
          (⟨some r.way, some r.nid, some (r.lat, r.lon), spans, seg⟩,
           some ⟨label,
             if spans then r.way ++ "_segment_" ++ toString seg else r.way,
             r.nid, r.lat, r.lon⟩,
           some ((prev.lat, prev.lon), (r.lat, r.lon))) := by
        simp only [SecondQstep, hrw, hrin, hpin]
        simp [hnid]
      have ih := pass_hops_all_in cell label w rest r
        (fun x hx => hall x (by simp [hx])) hrw hrin
        (List.chain'_cons.mp hchain).2 spans seg
      rw [SecondQpass, hstep]
      simp only [hrw] at ih ⊢
      rw [ih]
      simp [consecHops]

/-- The hop recorded by one partitioner step is `some` exactly when the
current point is in the cell, the duplicate-node guard passes, the row is
on the previous row's road, and the previous point was in the cell. -/
lemma SecondQstep_hop_iff (cell : Cell) (label : String) (st : QState)
    (row : Row) :
    (SecondQstep cell label st row).2.2 ≠ none ↔
      (Isincell (row.lat, row.lon) cell = true ∧
       ¬st.prevNode = some row.nid ∧
       (st.prevWay = some row.way ∧
        ∃ pc, st.prevCoords = some pc ∧ Isincell pc cell = true)) := by
  rcases st with ⟨pw, pn, pc, spans, seg⟩
  rcases pc with _ | q
  · by_cases h1 : (Isincell (row.lat, row.lon) cell = true ∧ ¬pn = some row.nid) <;>
      simp [SecondQstep, h1]
  · by_cases h1 : (Isincell (row.lat, row.lon) cell = true ∧ ¬pn = some row.nid) <;>
      by_cases h2 : (pw = some row.way ∧ Isincell q cell = true) <;>
        simp [SecondQstep, h1, h2]

/-- **C7.** In the cell partitioner a hop's Haversine distance is
accumulated exactly when the current and previous rows belong to the same
road, both points are inside the cell, and the row passes the
duplicate-node guard; consequently, for a road that lies entirely inside
one cell with distinct adjacent node ids, the accumulated total length of
a fresh pass equals the sum of consecutive-pair Haversine distances over
its waypoints. -/
theorem C7_length_conservation (cell : Cell) (label : String) (w : String)
    (rows : List Row)
    (hw : ∀ r ∈ rows, r.way = w)
    (hin : ∀ r ∈ rows, Isincell (r.lat, r.lon) cell = true)
    (hnd : List.Chain' (fun a b => a.nid ≠ b.nid) rows) :
    ((∀ st row, (SecondQstep cell label st row).2.2 ≠ none ↔
        (Isincell (row.lat, row.lon) cell = true ∧
         st.prevNode ≠ some row.nid ∧
         st.prevWay = some row.way ∧
         ∃ pc, st.prevCoords = some pc ∧ Isincell pc cell = true))) ∧
    hopSum ((SecondQpass cell label initQState rows).2.2) =
      ((rows.zip rows.tail).map fun pq =>
        Calculate_distance (ratRad (pq.1.lat, pq.1.lon))
          (ratRad (pq.2.lat, pq.2.lon))).sum := by
  constructor
  · intro st row
    exact SecondQstep_hop_iff cell label st row
  · have hmain : (SecondQpass cell label initQState rows).2.2 = consecHops rows := by
      cases rows with
      | nil => simp [SecondQpass, consecHops]
      | cons r0 rest =>
          have h0w : r0.way = w := hw r0 (by simp)
          have h0in : Isincell (r0.lat, r0.lon) cell = true := hin r0 (by simp)
          have hstep : SecondQstep cell label initQState r0 =
              (⟨some r0.way, some r0.nid, some (r0.lat, r0.lon), false, 0⟩,
               some ⟨label, r0.way, r0.nid, r0.lat, r0.lon⟩, none) := by
            simp [SecondQstep, initQState, h0in]
          rw [SecondQpass, hstep]
          have ih := pass_hops_all_in cell label w rest r0
            (fun x hx => ⟨hw x (by simp [hx]), hin x (by simp [hx])⟩) h0w h0in
            hnd false 0
          simp only [h0w] at ih ⊢
          rw [ih]
          simp
    rw [hmain]
    simp [hopSum, consecHops, List.map_map]
    rfl

/-- Two in-cell rows of one road, with distinct node ids. -/
def rowsC7 : List Row := [⟨"W", "p1", 5, 5⟩, ⟨"W", "p2", 5, 6⟩]

/-- Witness for C7 at a concrete two-row road inside `cellTen`. -/
theorem C7_witness :
    ((∀ r ∈ rowsC7, r.way = "W") ∧
     (∀ r ∈ rowsC7, Isincell (r.lat, r.lon) cellTen = true) ∧
     List.Chain' (fun a b => a.nid ≠ b.nid) rowsC7) ∧
    hopSum ((SecondQpass cellTen "cell_0" initQState rowsC7).2.2) =
      ((rowsC7.zip rowsC7.tail).map fun pq =>
        Calculate_distance (ratRad (pq.1.lat, pq.1.lon))
          (ratRad (pq.2.lat, pq.2.lon))).sum :=
  ⟨⟨by decide, by decide,
    List.chain'_cons.mpr ⟨by decide, List.chain'_singleton _⟩⟩,
   (C7_length_conservation cellTen "cell_0" "W" rowsC7 (by decide) (by decide)
     (List.chain'_cons.mpr ⟨by decide, List.chain'_singleton _⟩)).2⟩

/-! ## Helper lemmas for the resampler traces -/

/-- Kilometres per degree along a great circle through the poles /
along the equator: `6371·π/180`. -/
noncomputable def Kdeg : ℝ := 6371 * π / 180

/-- Coarse bounds on the km-per-degree factor, from the 6-digit π
bounds. -/
lemma Kdeg_bounds : (111.1949 : ℝ) < Kdeg ∧ Kdeg < (111.1950 : ℝ) := by
  rw [Kdeg]
  constructor
  · nlinarith [pi_gt_d6]
  · nlinarith [pi_lt_d6]

/-- Degree-space linear interpolation applied to radian-converted inputs
reduces to interpolation of the original degree coordinates. -/
lemma Calculate_new_node_deg (a b : ℝ × ℝ) (m d : ℝ) :
    Calculate_new_node (radiansP a) (radiansP b) m d =
      (b.1 + m / d * (a.1 - b.1), b.2 + m / d * (a.2 - b.2)) := by
  have hπ : (π : ℝ) ≠ 0 := pi_ne_zero
  simp only [Calculate_new_node, radiansP, degreesF]
  field_simp

/-- The synthetic node for equatorial rows stays on the equator and moves
the longitude by the ratio `min_distance / round6 (distance)`. -/
lemma synthNode_equator (endn cur : Node) (m : ℝ) (cnt : ℕ)
    (hc : cur.lat = 0) (he : endn.lat = 0) :
    synthNode endn cur m cnt =
      { way := cur.way, nid := "Generated Node " ++ toString cnt, lat := 0,
        lon := cur.lon + m / round6 (nodeDist cur endn) * (endn.lon - cur.lon) } := by
  simp only [synthNode, Calculate_new_node_deg, hc, he]
  ext <;> simp

/-- The synthetic node for two rows on a common parallel keeps the shared
latitude (the latitude interpolation step moves by `ratio · 0`). -/
lemma synthNode_parallel (endn cur : Node) (m : ℝ) (cnt : ℕ)
    (h : endn.lat = cur.lat) :
    synthNode endn cur m cnt =
      { way := cur.way, nid := "Generated Node " ++ toString cnt,
        lat := cur.lat,
        lon := cur.lon + m / round6 (nodeDist cur endn) * (endn.lon - cur.lon) } := by
  simp only [synthNode, Calculate_new_node_deg, h]
  ext <;> simp

/-- The synthetic node's id field. -/
lemma synthNode_nid (endn cur : Node) (m : ℝ) (cnt : ℕ) :
    (synthNode endn cur m cnt).nid = "Generated Node " ++ toString cnt := rfl

/-- With `min_distance = 0` the synthesized node keeps the cursor's
coordinates (`ratio = 0 / distance = 0`). -/
lemma synthNode_zero (endn cur : Node) (cnt : ℕ) :
    (synthNode endn cur 0 cnt).lat = cur.lat ∧
    (synthNode endn cur 0 cnt).lon = cur.lon := by
  simp [synthNode, Calculate_new_node_deg]

/-- Product bounds for positive factors. -/
lemma mul_bounds {u d ul uu dl du : ℝ} (hu : ul < u ∧ u < uu)
    (hd : dl < d ∧ d < du) (hul : 0 < ul) (hdl : 0 < dl) :
    ul * dl < u * d ∧ u * d < uu * du := by
  constructor
  · nlinarith [hu.1, hd.1]
  · nlinarith [hu.2, hd.2, hu.1, hd.1]

/-- A node is not in a list when its id is not among the list's ids. -/
lemma not_mem_of_nid {n : Node} {l : List Node}
    (h : n.nid ∉ l.map Node.nid) : n ∉ l :=
  fun hm => h (List.mem_map_of_mem _ hm)

/-- Haversine distance between two equatorial rows, for longitude
differences below 180°: exactly `Kdeg` kilometres per degree. -/
lemma nodeDist_equator (p q : Node) (hp : p.lat = 0) (hq : q.lat = 0)
    (h : |q.lon - p.lon| < 180) :
    nodeDist p q = Kdeg * |q.lon - p.lon| := by
  have hπ : (0 : ℝ) < π := pi_pos
  set Δ : ℝ := |q.lon - p.lon| with hΔ
  have hΔ0 : 0 ≤ Δ := abs_nonneg _
  set t : ℝ := Δ * π / 360 with ht
  have ht0 : 0 ≤ t := by positivity
  have htlt : t < π / 2 := by
    rw [ht]
    rw [div_lt_div_iff₀ (by norm_num) (by norm_num : (0:ℝ) < 2)]
    nlinarith
  have habs : |q.lon * π / 180 - p.lon * π / 180| = Δ * π / 180 := by
    have hsplit : q.lon * π / 180 - p.lon * π / 180 =
        (q.lon - p.lon) * (π / 180) := by ring
    rw [hΔ, hsplit, abs_mul, abs_of_pos (show (0:ℝ) < π / 180 by positivity)]
    ring
  have hsin0 : Real.sin t ≥ 0 :=
    Real.sin_nonneg_of_nonneg_of_le_pi ht0 (by linarith [htlt, hπ])
  have hcos0 : 0 < Real.cos t := Real.cos_pos_of_mem_Ioo ⟨by linarith, htlt⟩
  have hsoc : Real.sin (|q.lat * π / 180 - p.lat * π / 180| / 2) ^ 2 +
      Real.cos (q.lat * π / 180) * Real.cos (p.lat * π / 180) *
        Real.sin (|q.lon * π / 180 - p.lon * π / 180| / 2) ^ 2 =
      Real.sin t ^ 2 := by
    rw [hp, hq, habs]
    simp
    ring_nf
  rw [nodeDist, Calculate_distance, radiansP, radiansP]
  simp only
  rw [hsoc]
  have h1 : Real.sqrt (Real.sin t ^ 2) = Real.sin t := Real.sqrt_sq hsin0
  have h2 : (1 : ℝ) - Real.sin t ^ 2 = Real.cos t ^ 2 := by
    have := Real.sin_sq_add_cos_sq t
    linarith
  have h3 : Real.sqrt (1 - Real.sin t ^ 2) = Real.cos t := by
    rw [h2]
    exact Real.sqrt_sq hcos0.le
  rw [h1, h3, atan2_of_pos hcos0, ← Real.tan_eq_sin_div_cos,
    arctan_tan (by linarith) htlt, radius_of_earth]
  rw [abs_of_nonneg (by nlinarith [ht0])]
  rw [Kdeg, ht]
  ring

/-- Equatorial node distance with an eastward displacement. -/
lemma nodeDist_equator_pos (p q : Node) (hp : p.lat = 0) (hq : q.lat = 0)
    (h0 : p.lon < q.lon) (h1 : q.lon - p.lon < 180) :
    nodeDist p q = Kdeg * (q.lon - p.lon) := by
  rw [nodeDist_equator p q hp hq (by rw [abs_of_pos (by linarith)]; linarith),
    abs_of_pos (by linarith)]

/-- `arcsin` dominates the identity on `[0, 1]`. -/
lemma self_le_arcsin {x : ℝ} (h0 : 0 ≤ x) (h1 : x ≤ 1) : x ≤ arcsin x := by
  have h := Real.sin_le (Real.arcsin_nonneg.mpr h0)
  rwa [sin_arcsin (by linarith) h1] at h

/-- Haversine distance between two rows on the 60° parallel: the
longitude term is scaled by `cos 60° = 1/2`, giving
`2·R·arcsin((1/2)·sin (Δλ/2))` (with `Δλ` in radians). -/
lemma nodeDist_lat60 (p q : Node) (hp : p.lat = 60) (hq : q.lat = 60)
    (h0 : p.lon < q.lon) (h1 : q.lon - p.lon ≤ 180) :
    nodeDist p q =
      2 * 6371 * arcsin (1 / 2 * Real.sin ((q.lon - p.lon) * π / 360)) := by
  have hπ : (0 : ℝ) < π := pi_pos
  have hd : 0 < q.lon - p.lon := sub_pos.mpr h0
  set t : ℝ := (q.lon - p.lon) * π / 360 with ht
  have ht0 : 0 < t := by
    rw [ht]; exact div_pos (mul_pos hd hπ) (by norm_num)
  have htle : t ≤ π / 2 := by
    rw [ht, div_le_div_iff₀ (by norm_num) (by norm_num : (0:ℝ) < 2)]
    nlinarith
  have hsin0 : 0 ≤ Real.sin t :=
    Real.sin_nonneg_of_nonneg_of_le_pi ht0.le (by linarith)
  have hsin1 : Real.sin t ≤ 1 := Real.sin_le_one t
  have hlat : (60 : ℝ) * π / 180 = π / 3 := by ring
  have habs : |q.lon * π / 180 - p.lon * π / 180| = 2 * t := by
    have hsplit : q.lon * π / 180 - p.lon * π / 180 =
        (q.lon - p.lon) * (π / 180) := by ring
    rw [hsplit,
      abs_of_pos (mul_pos hd (by positivity : (0:ℝ) < π / 180)), ht]
    ring
  have hsoc : Real.sin (|q.lat * π / 180 - p.lat * π / 180| / 2) ^ 2 +
      Real.cos (q.lat * π / 180) * Real.cos (p.lat * π / 180) *
        Real.sin (|q.lon * π / 180 - p.lon * π / 180| / 2) ^ 2 =
      (1 / 2 * Real.sin t) ^ 2 := by
    rw [hp, hq, habs, hlat, Real.cos_pi_div_three]
    simp
    ring_nf
  rw [nodeDist, Calculate_distance, radiansP, radiansP]
  simp only
  rw [hsoc]
  have hx0 : 0 ≤ 1 / 2 * Real.sin t := by linarith [hsin0]
  have hx1 : 1 / 2 * Real.sin t ≤ 1 / 2 := by nlinarith
  have h1s : Real.sqrt ((1 / 2 * Real.sin t) ^ 2) = 1 / 2 * Real.sin t :=
    Real.sqrt_sq hx0
  have hpos : 0 < Real.sqrt (1 - (1 / 2 * Real.sin t) ^ 2) := by
    apply Real.sqrt_pos.mpr
    nlinarith
  rw [h1s, atan2_of_pos hpos]
  have harc : arctan (1 / 2 * Real.sin t /
      Real.sqrt (1 - (1 / 2 * Real.sin t) ^ 2)) =
      arcsin (1 / 2 * Real.sin t) := by
    rw [arcsin_eq_arctan (by constructor <;> nlinarith)]
  have harcpos : 0 ≤ arcsin (1 / 2 * Real.sin t) :=
    Real.arcsin_nonneg.mpr hx0
  rw [harc, radius_of_earth]
  rw [abs_of_nonneg (by linarith [harcpos])]
  ring

/-- `round6` moves its argument by at most `1/1000000`. -/
lemma round6_bounds (x : ℝ) :
    x - 1 / 1000000 ≤ round6 x ∧ round6 x ≤ x + 1 / 1000000 := by
  have h := abs_sub_round (x * 1000000)
  rw [abs_le] at h
  obtain ⟨h1, h2⟩ := h
  constructor <;> (rw [round6]; linarith)

lemma round6_gt {x c : ℝ} (h : c + 1 / 1000000 < x) : round6 x > c :=
  lt_of_lt_of_le (by linarith) (round6_bounds x).1

lemma round6_lt {x c : ℝ} (h : x < c - 1 / 1000000) : round6 x < c :=
  lt_of_le_of_lt (round6_bounds x).2 (by linarith)

/-- `round6` pinned to an exact 6-decimal value. -/
lemma round6_pin {x : ℝ} (n : ℤ) (h1 : (n : ℝ) - 1 / 2 < x * 1000000)
    (h2 : x * 1000000 < (n : ℝ) + 1 / 2) : round6 x = (n : ℝ) / 1000000 := by
  rw [round6]
  congr 1
  norm_cast
  rw [round_eq, Int.floor_eq_iff]
  constructor <;> [linarith; linarith]

/-- Interval version of `round6_bounds`, with outward-rounded rational
endpoints. -/
lemma round6_window {x lo hi a b : ℝ} (h : lo < x ∧ x < hi)
    (ha : a ≤ lo - 1 / 1000000) (hb : hi + 1 / 1000000 ≤ b) :
    a < round6 x ∧ round6 x < b := by
  have hr := round6_bounds x
  constructor
  · linarith [hr.1, h.1]
  · linarith [hr.2, h.2]

/-- Interval bound for `Kdeg * (e - l)` from an interval on `l`. -/
lemma Kdeg_mul_sub_window {e l llo lhi lo hi : ℝ} (hl : llo < l ∧ l < lhi)
    (hpos : lhi < e) (hlo : lo ≤ 111.1949 * (e - lhi))
    (hhi : 111.1950 * (e - llo) ≤ hi) :
    lo < Kdeg * (e - l) ∧ Kdeg * (e - l) < hi := by
  have hK := Kdeg_bounds
  constructor <;> nlinarith [hK.1, hK.2, hl.1, hl.2]

/-- Interval bound for `c / r` from an interval on `r`. -/
lemma div_window {c r lo hi a b : ℝ} (h : lo < r ∧ r < hi) (h0 : 0 < lo)
    (hc : 0 < c) (ha0 : 0 < a) (ha : a * hi ≤ c) (hb : c ≤ b * lo) :
    a < c / r ∧ c / r < b := by
  have hr0 : 0 < r := lt_trans h0 h.1
  have hb0 : 0 < b := by nlinarith [hc]
  constructor
  · rw [lt_div_iff₀ hr0]; nlinarith [h.2]
  · rw [div_lt_iff₀ hr0]
    nlinarith [mul_lt_mul_of_pos_left h.1 hb0]

/-- Interval bound for `1 / r` from an interval on `r`. -/
lemma one_div_window {r lo hi a b : ℝ} (h : lo < r ∧ r < hi) (h0 : 0 < lo)
    (ha0 : 0 < a) (ha : a * hi ≤ 1) (hb : 1 ≤ b * lo) :
    a < 1 / r ∧ 1 / r < b :=
  div_window h h0 one_pos ha0 ha hb

/-- Interval bound for the interpolation step `l + u * (e - l)`. -/
lemma interp_window {l u e llo lhi ulo uhi lo hi : ℝ}
    (hl : llo < l ∧ l < lhi) (hu : ulo < u ∧ u < uhi)
    (h0u : 0 < ulo) (hle : lhi < e)
    (hlo : lo ≤ llo + ulo * (e - lhi)) (hhi : lhi + uhi * (e - llo) ≤ hi) :
    lo < l + u * (e - l) ∧ l + u * (e - l) < hi := by
  constructor <;> nlinarith [hl.1, hl.2, hu.1, hu.2]

/-- A strictly smaller lower endpoint stays below the value. -/
lemma sub_lt_180_of_window {e l lo : ℝ} (h : lo < l) (hc : e - 180 ≤ lo) :
    e - l < 180 := by linarith

lemma appendIfNew_of_mem {upd : List Node} {n : Node} (h : n ∈ upd) :
    appendIfNew upd n = upd := if_pos h

lemma appendIfNew_of_not_mem {upd : List Node} {n : Node} (h : n ∉ upd) :
    appendIfNew upd n = upd ++ [n] := if_neg h

/-- One `while` iteration: guard true. -/
lemma pairLoop_gt {m : ℝ} {endn cur : Node}
    (h : round6 (nodeDist cur endn) > m) (fuel : ℕ) (upd : List Node) (cnt : ℕ) :
    pairLoop m endn (fuel + 1) cur upd cnt =
      pairLoop m endn fuel (synthNode endn cur m (cnt + 1))
        (appendIfNew upd cur) (cnt + 1) := by
  rw [pairLoop, if_pos h]

/-- `while` exit through the `distance < min_distance` branch. -/
lemma pairLoop_lt {m : ℝ} {endn cur : Node}
    (h : round6 (nodeDist cur endn) < m) (fuel : ℕ) (upd : List Node) (cnt : ℕ) :
    pairLoop m endn fuel cur upd cnt = some (cur, appendIfNew upd cur, cnt) := by
  cases fuel <;>
    rw [pairLoop, if_neg h.asymm, pairExit, if_pos h]

/-- `while` exit through the `distance == min_distance` branch. -/
lemma pairLoop_eq_min {m : ℝ} {endn cur : Node}
    (h : round6 (nodeDist cur endn) = m) (fuel : ℕ) (upd : List Node) (cnt : ℕ) :
    pairLoop m endn fuel cur upd cnt =
      some (endn, appendIfNew upd cur ++ [endn], cnt) := by
  cases fuel <;>
    rw [pairLoop, if_neg (h ▸ lt_irrefl m), pairExit, if_neg (h ▸ lt_irrefl m)]

attribute [irreducible] Calculate_distance nodeDist round6 synthNode

/-! ## Failure semantics of the resampler for non-positive distances (C5) -/

/-- Waypoint `A` at the origin. -/
noncomputable def nA : Node := ⟨"W", "A", 0, 0⟩

/-- Waypoint `B`, 0.01° east of `A` on the equator (about 1.11 km). -/
noncomputable def nB01 : Node := ⟨"W", "B", 0, 1 / 100⟩

/-- The equatorial `A`-to-`B` distance is strictly positive after
rounding. -/
lemma nodeDist_nA_nB01_pos (cur : Node) (hla : cur.lat = 0)
    (hlo : cur.lon = 0) : round6 (nodeDist cur nB01) > 0 := by
  have h : nodeDist cur nB01 = Kdeg * |nB01.lon - cur.lon| :=
    nodeDist_equator cur nB01 hla rfl (by simp [nB01, hlo]; norm_num [abs_of_pos])
  rw [h, hlo]
  apply round6_gt
  have hπ := pi_gt_d2
  simp only [nB01, Kdeg]
  rw [abs_of_pos (by norm_num : (0:ℝ) < 1/100 - 0)]
  nlinarith

/-- With `min_distance = 0` the `while` loop never exits: the guard stays
true and the state's coordinates never change. -/
lemma pairLoop_zero_none : ∀ (fuel : ℕ) (cur : Node), cur.lat = 0 →
    cur.lon = 0 → ∀ (upd : List Node) (cnt : ℕ),
    pairLoop 0 nB01 fuel cur upd cnt = none := by
  intro fuel
  induction fuel with
  | zero =>
      intro cur hla hlo upd cnt
      rw [pairLoop, if_pos (nodeDist_nA_nB01_pos cur hla hlo)]
  | succ f ih =>
      intro cur hla hlo upd cnt
      rw [pairLoop, if_pos (nodeDist_nA_nB01_pos cur hla hlo)]
      exact ih _ (by rw [(synthNode_zero _ _ _).1, hla])
        (by rw [(synthNode_zero _ _ _).2, hlo]) _ _

/-- **C5.** The resampler does not reject `min_distance ≤ 0`: there is no
`InvalidParameter` check, and on the road `[A, B]` with
`min_distance = 0` the `while` loop runs forever (the fuel-indexed
embedding returns `none` for every fuel), for every incoming node
counter. -/
theorem C5_zero_min_distance_never_terminates (fuel cnt : ℕ) :
    Create_new_nodes_on_road fuel [nA, nB01] 0 cnt = none := by
  rw [Create_new_nodes_on_road]
  simp [resampleGo, pairLoop_zero_none fuel nA rfl rfl [] cnt]

/-! ## Insertion-only resampling? (C2) -/

/-- Rows differing in node id are different rows. -/
lemma Node.ne_of_nid {p q : Node} (h : p.nid ≠ q.nid) : p ≠ q :=
  fun he => h (he ▸ rfl)

/-- Waypoint `B'`, 0.001° east of `A` on the equator (≈ 0.111 km). -/
noncomputable def nB001 : Node := ⟨"W", "B", 0, 1 / 1000⟩

/-- Waypoint `C'`, 0.002° east of `A` on the equator (≈ 0.222 km). -/
noncomputable def nC002 : Node := ⟨"W", "C", 0, 2 / 1000⟩

/-- Evaluation of the resampler on `[A, B', C']` with `min_distance = 1`:
the rounded distances `A→B'` (≈ 0.111 km) and `A→C'` (≈ 0.222 km) are both
below 1 km, the cursor never advances past `A`, and `B'` is dropped. -/
lemma C2_eval (fuel cnt : ℕ) :
    Create_new_nodes_on_road fuel [nA, nB001, nC002] 1 cnt =
      some ([nA, nC002], cnt) := by
  have h1 : round6 (nodeDist nA nB001) < 1 := by
    rw [nodeDist_equator nA nB001 rfl rfl
      (by simp [nA, nB001]; rw [abs_of_pos] <;> norm_num)]
    apply round6_lt
    simp only [nA, nB001]
    nlinarith [Kdeg_bounds.1, Kdeg_bounds.2,
      abs_of_pos (by norm_num : (0:ℝ) < 1/1000 - 0)]
  have h2 : round6 (nodeDist nA nC002) < 1 := by
    rw [nodeDist_equator nA nC002 rfl rfl
      (by simp [nA, nC002]; rw [abs_of_pos] <;> norm_num)]
    apply round6_lt
    simp only [nA, nC002]
    nlinarith [Kdeg_bounds.1, Kdeg_bounds.2,
      abs_of_pos (by norm_num : (0:ℝ) < 2/1000 - 0)]
  have hCA : nC002 ∉ [nA] := by
    simp only [List.mem_singleton]
    exact Node.ne_of_nid (by simp [nA, nC002])
  rw [Create_new_nodes_on_road]
  rw [resampleGo, pairLoop_lt h1, appendIfNew_of_not_mem (List.not_mem_nil nA)]
  simp only [List.nil_append, Option.some_bind]
  rw [resampleGo, pairLoop_lt h2, appendIfNew_of_mem (List.mem_singleton_self nA)]
  simp only [Option.some_bind, resampleGo, Option.map_some']
  have hlast : [nA, nB001, nC002].getLast (by simp) = nC002 := rfl
  rw [hlast, if_neg hCA]
  simp

/-- **C2 (counterexample).** Resampling is not insertion-only: on the road
`[A, B', C']` with `min_distance = 1` km (original spacings ≈ 0.111 km),
the original interior waypoint `B'` does not appear in the output — the
cursor only advances past an original waypoint in the exact-equality
branch, and otherwise interior originals are dropped. -/
theorem C2_counterexample :
    ¬ (∀ (l : List Node) (c : ℕ),
        Create_new_nodes_on_road 5 [nA, nB001, nC002] 1 0 = some (l, c) →
        nB001 ∈ l) := by
  intro h
  have hmem := h _ _ (C2_eval 5 0)
  have h1 : nB001 ≠ nA := Node.ne_of_nid (by simp [nA, nB001])
  have h2 : nB001 ≠ nC002 := Node.ne_of_nid (by simp [nC002, nB001])
  simp only [List.mem_cons, List.mem_singleton] at hmem
  rcases hmem with h' | h' | h'
  · exact h1 h'
  · exact h2 h'
  · simp at h'

/-- **C2 (amended).** Order is preserved and only extended by insertion in
the emitted prefix, but original interior waypoints can be dropped; what
the final guard of the resampler does guarantee for every road and every
`min_distance` is that the road's last waypoint is a member of the
output. -/
theorem C2_last_waypoint_member (nodes : List Node) (h : nodes ≠ [])
    (fuel : ℕ) (m : ℝ) (cnt : ℕ) (l : List Node) (c : ℕ)
    (heq : Create_new_nodes_on_road fuel nodes m cnt = some (l, c)) :
    nodes.getLast h ∈ l := by
  cases nodes with
  | nil => exact absurd rfl h
  | cons n0 rest =>
      rw [Create_new_nodes_on_road] at heq
      rcases hmap : resampleGo fuel m n0 [] cnt rest with _ | s
      · rw [hmap] at heq
        simp at heq
      · rw [hmap] at heq
        simp only [Option.map_some', Option.some.injEq] at heq
        by_cases hin : (n0 :: rest).getLast (by simp) ∈ s.2.1
        · rw [if_pos hin] at heq
          have hl : s.2.1 = l := congrArg Prod.fst heq
          exact hl ▸ hin
        · rw [if_neg hin] at heq
          have hl : s.2.1 ++ [(n0 :: rest).getLast (by simp)] = l :=
            congrArg Prod.fst heq
          rw [← hl]
          exact List.mem_append_right _ (List.mem_singleton_self _)

/-- Witness for C2 at the singleton road `[A]`. -/
theorem C2_witness :
    (([nA] : List Node) ≠ []) ∧ [nA].getLast (by simp) ∈ ([nA] : List Node) := by
  refine ⟨by simp, C2_last_waypoint_member [nA] (by simp) 0 1 0 [nA] 0 ?_⟩
  rw [Create_new_nodes_on_road]
  simp only [resampleGo, Option.map_some']
  have hlast : [nA].getLast (by simp) = nA := rfl
  rw [hlast, if_neg (List.not_mem_nil nA)]
  rfl

/-! ## The W1 example scenario (C3) -/

/-- `N1(0, 0)` of road `W1`. -/
noncomputable def wN1 : Node := ⟨"W1", "N1", 0, 0⟩

/-- `N2(0, 0.02)` of road `W1`. -/
noncomputable def wN2 : Node := ⟨"W1", "N2", 0, 2 / 100⟩

/-- `N3(0, 0.04)` of road `W1`. -/
noncomputable def wN3 : Node := ⟨"W1", "N3", 0, 4 / 100⟩

/-- First synthetic node, 1 km east of `N1` toward `N2`. -/
noncomputable def wS1 : Node := synthNode wN2 wN1 1 1

/-- Second synthetic node, 1 km east of `wS1` toward `N2`. -/
noncomputable def wS2 : Node := synthNode wN2 wS1 1 2

/-- Third synthetic node, 1 km east of `wS2` toward `N3`. -/
noncomputable def wS3 : Node := synthNode wN3 wS2 1 3

/-- Fourth synthetic node, 1 km east of `wS3` toward `N3`. -/
noncomputable def wS4 : Node := synthNode wN3 wS3 1 4

lemma wS1_def : wS1 = synthNode wN2 wN1 1 1 := rfl

lemma wS2_def : wS2 = synthNode wN2 wS1 1 2 := rfl

lemma wS3_def : wS3 = synthNode wN3 wS2 1 3 := rfl

lemma wS4_def : wS4 = synthNode wN3 wS3 1 4 := rfl

/-- Full evaluation of the resampler on the W1 example road with
`min_distance = 1` km: the `A→B` leg (≈ 2.2239 km) is split twice, the
cursor stops ≈ 0.224 km short of `N2` and never advances to it, the leg
from there to `N3` (≈ 2.4478 km) is split twice more, and the final guard
appends `N3`.  `N2` is dropped. -/
lemma C3_trace :
    Create_new_nodes_on_road 10 [wN1, wN2, wN3] 1 0 =
      some ([wN1, wS1, wS2, wS3, wS4, wN3], 4) := by
  -- stage 1: N1 → N2, distance ≈ 2.22390
  have hw1lon : wN1.lon = 0 := rfl
  have hw2lon : wN2.lon = 2 / 100 := rfl
  have hw3lon : wN3.lon = 4 / 100 := rfl
  have hd1 : nodeDist wN1 wN2 = Kdeg * (wN2.lon - wN1.lon) :=
    nodeDist_equator_pos _ _ rfl rfl (by rw [hw1lon, hw2lon]; norm_num)
      (by rw [hw1lon, hw2lon]; norm_num)
  have hd1b : 2.22389 < nodeDist wN1 wN2 ∧ nodeDist wN1 wN2 < 2.22391 := by
    rw [hd1, hw1lon, hw2lon]
    have h00 : (-1 / 1000000000 : ℝ) < (0 : ℝ) ∧ (0 : ℝ) < 1 / 1000000000 :=
      ⟨by norm_num, by norm_num⟩
    exact Kdeg_mul_sub_window h00 (by norm_num) (by norm_num) (by norm_num)
  have hg1 : round6 (nodeDist wN1 wN2) > 1 :=
    round6_gt (lt_of_le_of_lt (by norm_num) hd1b.1)
  have hr1 : 2.223889 < round6 (nodeDist wN1 wN2) ∧
      round6 (nodeDist wN1 wN2) < 2.223911 :=
    round6_window hd1b (by norm_num) (by norm_num)
  have hS1 : wS1.lat = 0 ∧ wS1.lon =
      wN1.lon + 1 / round6 (nodeDist wN1 wN2) * (wN2.lon - wN1.lon) := by
    rw [wS1_def, synthNode_equator wN2 wN1 1 1 rfl rfl]
    exact ⟨rfl, rfl⟩
  have hl1 : 0.008993 < wS1.lon ∧ wS1.lon < 0.008994 := by
    rw [hS1.2, hw1lon, hw2lon, zero_add, sub_zero, div_mul_eq_mul_div, one_mul]
    exact div_window hr1 (by norm_num) (by norm_num) (by norm_num) (by norm_num)
      (by norm_num)
  -- stage 2: wS1 → N2, distance ≈ 1.22390
  have hd2 : nodeDist wS1 wN2 = Kdeg * (wN2.lon - wS1.lon) :=
    nodeDist_equator_pos _ _ hS1.1 rfl
      (by rw [hw2lon]; exact lt_of_lt_of_le hl1.2 (by norm_num))
      (by rw [hw2lon]; exact sub_lt_180_of_window hl1.1 (by norm_num))
  have hd2b : 1.2238 < nodeDist wS1 wN2 ∧ nodeDist wS1 wN2 < 1.2240 := by
    rw [hd2, hw2lon]
    exact Kdeg_mul_sub_window hl1 (by norm_num) (by norm_num) (by norm_num)
  have hg2 : round6 (nodeDist wS1 wN2) > 1 :=
    round6_gt (lt_of_le_of_lt (by norm_num) hd2b.1)
  have hr2 : 1.2237 < round6 (nodeDist wS1 wN2) ∧
      round6 (nodeDist wS1 wN2) < 1.2241 :=
    round6_window hd2b (by norm_num) (by norm_num)
  have hu2 : 0.81692 < 1 / round6 (nodeDist wS1 wN2) ∧
      1 / round6 (nodeDist wS1 wN2) < 0.81720 :=
    one_div_window hr2 (by norm_num) (by norm_num) (by norm_num) (by norm_num)
  have hS2 : wS2.lat = 0 ∧ wS2.lon =
      wS1.lon + 1 / round6 (nodeDist wS1 wN2) * (wN2.lon - wS1.lon) := by
    rw [wS2_def, synthNode_equator wN2 wS1 1 2 hS1.1 rfl]
    exact ⟨rfl, rfl⟩
  have hl2 : 0.017984 < wS2.lon ∧ wS2.lon < 0.017989 := by
    rw [hS2.2, hw2lon]
    exact interp_window hl1 hu2 (by norm_num) (by norm_num) (by norm_num)
      (by norm_num)
  -- stage 3: wS2 → N2, distance ≈ 0.2239, exit
  have hd3 : nodeDist wS2 wN2 = Kdeg * (wN2.lon - wS2.lon) :=
    nodeDist_equator_pos _ _ hS2.1 rfl
      (by rw [hw2lon]; exact lt_of_lt_of_le hl2.2 (by norm_num))
      (by rw [hw2lon]; exact sub_lt_180_of_window hl2.1 (by norm_num))
  have hd3b : 0.2236 < nodeDist wS2 wN2 ∧ nodeDist wS2 wN2 < 0.2242 := by
    rw [hd3, hw2lon]
    exact Kdeg_mul_sub_window hl2 (by norm_num) (by norm_num) (by norm_num)
  have hg3 : round6 (nodeDist wS2 wN2) < 1 :=
    round6_lt (lt_of_lt_of_le hd3b.2 (by norm_num))
  -- stage 4: wS2 → N3, distance ≈ 2.4478
  have hd4 : nodeDist wS2 wN3 = Kdeg * (wN3.lon - wS2.lon) :=
    nodeDist_equator_pos _ _ hS2.1 rfl
      (by rw [hw3lon]; exact lt_of_lt_of_le hl2.2 (by norm_num))
      (by rw [hw3lon]; exact sub_lt_180_of_window hl2.1 (by norm_num))
  have hd4b : 2.4475 < nodeDist wS2 wN3 ∧ nodeDist wS2 wN3 < 2.4481 := by
    rw [hd4, hw3lon]
    exact Kdeg_mul_sub_window hl2 (by norm_num) (by norm_num) (by norm_num)
  have hg4 : round6 (nodeDist wS2 wN3) > 1 :=
    round6_gt (lt_of_le_of_lt (by norm_num) hd4b.1)
  have hr4 : 2.4474 < round6 (nodeDist wS2 wN3) ∧
      round6 (nodeDist wS2 wN3) < 2.4482 :=
    round6_window hd4b (by norm_num) (by norm_num)
  have hu4 : 0.40846 < 1 / round6 (nodeDist wS2 wN3) ∧
      1 / round6 (nodeDist wS2 wN3) < 0.40860 :=
    one_div_window hr4 (by norm_num) (by norm_num) (by norm_num) (by norm_num)
  have hS3 : wS3.lat = 0 ∧ wS3.lon =
      wS2.lon + 1 / round6 (nodeDist wS2 wN3) * (wN3.lon - wS2.lon) := by
    rw [wS3_def, synthNode_equator wN3 wS2 1 3 hS2.1 rfl]
    exact ⟨rfl, rfl⟩
  have hl3 : 0.026974 < wS3.lon ∧ wS3.lon < 0.026985 := by
    rw [hS3.2, hw3lon]
    exact interp_window hl2 hu4 (by norm_num) (by norm_num) (by norm_num)
      (by norm_num)
  -- stage 5: wS3 → N3, distance ≈ 1.4478
  have hd5 : nodeDist wS3 wN3 = Kdeg * (wN3.lon - wS3.lon) :=
    nodeDist_equator_pos _ _ hS3.1 rfl
      (by rw [hw3lon]; exact lt_of_lt_of_le hl3.2 (by norm_num))
      (by rw [hw3lon]; exact sub_lt_180_of_window hl3.1 (by norm_num))
  have hd5b : 1.4472 < nodeDist wS3 wN3 ∧ nodeDist wS3 wN3 < 1.4485 := by
    rw [hd5, hw3lon]
    exact Kdeg_mul_sub_window hl3 (by norm_num) (by norm_num) (by norm_num)
  have hg5 : round6 (nodeDist wS3 wN3) > 1 :=
    round6_gt (lt_of_le_of_lt (by norm_num) hd5b.1)
  have hr5 : 1.4471 < round6 (nodeDist wS3 wN3) ∧
      round6 (nodeDist wS3 wN3) < 1.4486 :=
    round6_window hd5b (by norm_num) (by norm_num)
  have hu5 : 0.69032 < 1 / round6 (nodeDist wS3 wN3) ∧
      1 / round6 (nodeDist wS3 wN3) < 0.69104 :=
    one_div_window hr5 (by norm_num) (by norm_num) (by norm_num) (by norm_num)
  have hS4 : wS4.lat = 0 ∧ wS4.lon =
      wS3.lon + 1 / round6 (nodeDist wS3 wN3) * (wN3.lon - wS3.lon) := by
    rw [wS4_def, synthNode_equator wN3 wS3 1 4 hS3.1 rfl]
    exact ⟨rfl, rfl⟩
  have hl4 : 0.035958 < wS4.lon ∧ wS4.lon < 0.035987 := by
    rw [hS4.2, hw3lon]
    exact interp_window hl3 hu5 (by norm_num) (by norm_num) (by norm_num)
      (by norm_num)
  -- stage 6: wS4 → N3, distance ≈ 0.4478, exit
  have hd6 : nodeDist wS4 wN3 = Kdeg * (wN3.lon - wS4.lon) :=
    nodeDist_equator_pos _ _ hS4.1 rfl
      (by rw [hw3lon]; exact lt_of_lt_of_le hl4.2 (by norm_num))
      (by rw [hw3lon]; exact sub_lt_180_of_window hl4.1 (by norm_num))
  have hd6b : 0.4462 < nodeDist wS4 wN3 ∧ nodeDist wS4 wN3 < 0.4495 := by
    rw [hd6, hw3lon]
    exact Kdeg_mul_sub_window hl4 (by norm_num) (by norm_num) (by norm_num)
  have hg6 : round6 (nodeDist wS4 wN3) < 1 :=
    round6_lt (lt_of_lt_of_le hd6b.2 (by norm_num))
  -- node ids and membership decisions
  have hnN1 : wN1.nid = "N1" := rfl
  have hnN3 : wN3.nid = "N3" := rfl
  have hn1 : wS1.nid = "Generated Node 1" := by
    rw [wS1_def, synthNode_nid]
    decide
  have hn2 : wS2.nid = "Generated Node 2" := by
    rw [wS2_def, synthNode_nid]
    decide
  have hn3 : wS3.nid = "Generated Node 3" := by
    rw [wS3_def, synthNode_nid]
    decide
  have hn4 : wS4.nid = "Generated Node 4" := by
    rw [wS4_def, synthNode_nid]
    decide
  have hS1ni : wS1 ∉ [wN1] :=
    not_mem_of_nid (by simp [hn1, hnN1])
  have hS2ni : wS2 ∉ [wN1, wS1] :=
    not_mem_of_nid (by simp [hn2, hn1, hnN1])
  have hS2mem : wS2 ∈ [wN1, wS1, wS2] := by simp
  have hS3ni : wS3 ∉ [wN1, wS1, wS2] :=
    not_mem_of_nid (by simp [hn3, hn2, hn1, hnN1])
  have hS4ni : wS4 ∉ [wN1, wS1, wS2, wS3] :=
    not_mem_of_nid (by simp [hn4, hn3, hn2, hn1, hnN1])
  have hN3ni : wN3 ∉ [wN1, wS1, wS2, wS3, wS4] :=
    not_mem_of_nid (by simp [hnN3, hn4, hn3, hn2, hn1, hnN1])
  -- unfold the resampler along the decided guards
  show Create_new_nodes_on_road (8 + 1 + 1) [wN1, wN2, wN3] 1 0 = _
  rw [Create_new_nodes_on_road, resampleGo, pairLoop_gt hg1,
    appendIfNew_of_not_mem (List.not_mem_nil wN1)]
  rw [show synthNode wN2 wN1 1 (0 + 1) = wS1 from wS1_def.symm]
  rw [pairLoop_gt hg2, appendIfNew_of_not_mem (by simpa using hS1ni)]
  rw [show synthNode wN2 wS1 1 (0 + 1 + 1) = wS2 from wS2_def.symm]
  rw [pairLoop_lt hg3]
  simp only [List.nil_append, List.cons_append, Option.some_bind]
  rw [appendIfNew_of_not_mem hS2ni]
  simp only [List.cons_append, List.nil_append]
  rw [resampleGo, pairLoop_gt hg4, appendIfNew_of_mem hS2mem]
  rw [show synthNode wN3 wS2 1 (0 + 1 + 1 + 1) = wS3 from wS3_def.symm]
  rw [pairLoop_gt hg5, appendIfNew_of_not_mem hS3ni]
  simp only [List.cons_append, List.nil_append]
  rw [show synthNode wN3 wS3 1 (0 + 1 + 1 + 1 + 1) = wS4 from wS4_def.symm]
  rw [pairLoop_lt hg6, appendIfNew_of_not_mem hS4ni]
  simp only [List.cons_append, List.nil_append, Option.some_bind, resampleGo,
    Option.map_some']
  rw [show [wN1, wN2, wN3].getLast (by simp) = wN3 from rfl, if_neg hN3ni]

lemma wN1_nid : wN1.nid = "N1" := rfl

lemma wN3_nid : wN3.nid = "N3" := rfl

lemma wS1_nid : wS1.nid = "Generated Node 1" := by
  rw [wS1_def, synthNode_nid]; decide

lemma wS2_nid : wS2.nid = "Generated Node 2" := by
  rw [wS2_def, synthNode_nid]; decide

lemma wS3_nid : wS3.nid = "Generated Node 3" := by
  rw [wS3_def, synthNode_nid]; decide

lemma wS4_nid : wS4.nid = "Generated Node 4" := by
  rw [wS4_def, synthNode_nid]; decide

/-- **C3 (counterexample).** On the road `W1 = [N1(0,0), N2(0,0.02),
N3(0,0.04)]` with `min_distance_km = 1`, the resampler does not return 5
waypoints: each original leg is ≈ 2.22 km and is split twice (the cursor
advances only 1 km per iteration and never reaches `N2`), so 6 waypoints
come back and `N2` is dropped. -/
theorem C3_counterexample :
    ¬ (∀ (l : List Node) (c : ℕ),
        Create_new_nodes_on_road 10 [wN1, wN2, wN3] 1 0 = some (l, c) →
        l.length = 5) := by
  intro h
  have hlen := h _ _ C3_trace
  simp at hlen

/-- **C3 (amended).** On the W1 example road with `min_distance_km = 1`
the resampler returns 6 waypoints: `N1`, two synthetic nodes toward `N2`,
two further synthetic nodes toward `N3`, and `N3`; `N2` itself is dropped
(first and last output waypoints are `N1` and `N3`), and the global node
counter ends at 4. -/
theorem C3_resample_W1_six_points :
    (Create_new_nodes_on_road 10 [wN1, wN2, wN3] 1 0).map
        (fun p => (p.1.map Node.nid, p.2)) =
      some (["N1", "Generated Node 1", "Generated Node 2",
             "Generated Node 3", "Generated Node 4", "N3"], 4) := by
  rw [C3_trace]
  simp [wN1_nid, wN3_nid, wS1_nid, wS2_nid, wS3_nid, wS4_nid]

/-! ## Idempotence of the resampler (C8) -/

/-- Waypoint 0.0036° east of `A` on the equator (≈ 0.4003 km). -/
noncomputable def nB36 : Node := ⟨"W", "B", 0, 36 / 10000⟩

/-- Waypoint 0.0063° east of `A` on the equator (≈ 0.7005 km). -/
noncomputable def nB63 : Node := ⟨"W", "B", 0, 63 / 10000⟩

/-- First-pass synthetic node on the `A → B₃₆` leg (counter 1). -/
noncomputable def sT1 : Node := synthNode nB36 nA (1 / 3) 1

/-- Second-pass synthetic node on the same leg (counter 2). -/
noncomputable def sT2 : Node := synthNode nB36 nA (1 / 3) 2

/-- Synthetic node on the `A → B₆₃` leg with `min_distance = 2/5`. -/
noncomputable def uT1 : Node := synthNode nB63 nA (2 / 5) 1

lemma sT1_def : sT1 = synthNode nB36 nA (1 / 3) 1 := rfl

lemma sT2_def : sT2 = synthNode nB36 nA (1 / 3) 2 := rfl

lemma uT1_def : uT1 = synthNode nB63 nA (2 / 5) 1 := rfl

lemma nA_lon : nA.lon = 0 := rfl

lemma nB36_lon : nB36.lon = 36 / 10000 := rfl

lemma nB63_lon : nB63.lon = 63 / 10000 := rfl

lemma nA_nid : nA.nid = "A" := rfl

lemma nB36_nid : nB36.nid = "B" := rfl

lemma nB63_nid : nB63.nid = "B" := rfl

lemma sT1_nid : sT1.nid = "Generated Node 1" := by
  rw [sT1_def, synthNode_nid]; decide

lemma sT2_nid : sT2.nid = "Generated Node 2" := by
  rw [sT2_def, synthNode_nid]; decide

lemma uT1_nid : uT1.nid = "Generated Node 1" := by
  rw [uT1_def, synthNode_nid]; decide

/-- The `A → B₃₆` distance `127420·π·10⁻⁶` km rounds to exactly
`0.400302` km. -/
lemma round6_dAB36 : round6 (nodeDist nA nB36) = 400302 / 1000000 := by
  have hd : nodeDist nA nB36 = Kdeg * (nB36.lon - nA.lon) :=
    nodeDist_equator_pos nA nB36 rfl rfl (by rw [nA_lon, nB36_lon]; norm_num)
      (by rw [nA_lon, nB36_lon]; norm_num)
  have h1 : ((400302 : ℤ) : ℝ) - 1 / 2 < nodeDist nA nB36 * 1000000 := by
    rw [hd, nA_lon, nB36_lon, Kdeg]
    push_cast
    nlinarith [pi_gt_d6]
  have h2 : nodeDist nA nB36 * 1000000 < ((400302 : ℤ) : ℝ) + 1 / 2 := by
    rw [hd, nA_lon, nB36_lon, Kdeg]
    push_cast
    nlinarith [pi_lt_d6]
  rw [round6_pin 400302 h1 h2]
  norm_num

/-- The `A → B₆₃` distance `222985·π·10⁻⁶` km rounds to exactly
`0.700528` km. -/
lemma round6_dAB63 : round6 (nodeDist nA nB63) = 700528 / 1000000 := by
  have hd : nodeDist nA nB63 = Kdeg * (nB63.lon - nA.lon) :=
    nodeDist_equator_pos nA nB63 rfl rfl (by rw [nA_lon, nB63_lon]; norm_num)
      (by rw [nA_lon, nB63_lon]; norm_num)
  have h1 : ((700528 : ℤ) : ℝ) - 1 / 2 < nodeDist nA nB63 * 1000000 := by
    rw [hd, nA_lon, nB63_lon, Kdeg]
    push_cast
    nlinarith [pi_gt_d6]
  have h2 : nodeDist nA nB63 * 1000000 < ((700528 : ℤ) : ℝ) + 1 / 2 := by
    rw [hd, nA_lon, nB63_lon, Kdeg]
    push_cast
    nlinarith [pi_lt_d6]
  rw [round6_pin 700528 h1 h2]
  norm_num

lemma sT1_facts : sT1.lat = 0 ∧ sT1.lon =
    nA.lon + 1 / 3 / round6 (nodeDist nA nB36) * (nB36.lon - nA.lon) := by
  rw [sT1_def, synthNode_equator nB36 nA (1 / 3) 1 rfl rfl]
  exact ⟨rfl, rfl⟩

lemma sT1_lat : sT1.lat = 0 := sT1_facts.1

lemma sT1_lon : sT1.lon = 200 / 66717 := by
  rw [sT1_facts.2, round6_dAB36, nA_lon, nB36_lon]
  norm_num

lemma sT2_facts : sT2.lat = 0 ∧ sT2.lon =
    nA.lon + 1 / 3 / round6 (nodeDist nA nB36) * (nB36.lon - nA.lon) := by
  rw [sT2_def, synthNode_equator nB36 nA (1 / 3) 2 rfl rfl]
  exact ⟨rfl, rfl⟩

lemma sT2_lat : sT2.lat = 0 := sT2_facts.1

lemma sT2_lon : sT2.lon = 200 / 66717 := by
  rw [sT2_facts.2, round6_dAB36, nA_lon, nB36_lon]
  norm_num

lemma uT1_facts : uT1.lat = 0 ∧ uT1.lon =
    nA.lon + 2 / 5 / round6 (nodeDist nA nB63) * (nB63.lon - nA.lon) := by
  rw [uT1_def, synthNode_equator nB63 nA (2 / 5) 1 rfl rfl]
  exact ⟨rfl, rfl⟩

lemma uT1_lat : uT1.lat = 0 := uT1_facts.1

lemma uT1_lon : uT1.lon = 315 / 87566 := by
  rw [uT1_facts.2, round6_dAB63, nA_lon, nB63_lon]
  norm_num

/-- Distance from a node at `(0, 200/66717)` on to `B₃₆` is ≈ 0.0670 km,
safely below `1/3`. -/
lemma round6_mid36 (s : Node) (hlat : s.lat = 0) (hlon : s.lon = 200 / 66717) :
    round6 (nodeDist s nB36) < 1 / 3 := by
  have hd : nodeDist s nB36 = Kdeg * (nB36.lon - s.lon) :=
    nodeDist_equator_pos s nB36 hlat rfl (by rw [hlon, nB36_lon]; norm_num)
      (by rw [hlon, nB36_lon]; norm_num)
  apply round6_lt
  rw [hd, hlon, nB36_lon, Kdeg]
  nlinarith [pi_lt_d6]

/-- Distance from a node at `(0, 315/87566)` on to `B₆₃` is ≈ 0.3005 km,
safely below `2/5`. -/
lemma round6_mid63 (s : Node) (hlat : s.lat = 0) (hlon : s.lon = 315 / 87566) :
    round6 (nodeDist s nB63) < 2 / 5 := by
  have hd : nodeDist s nB63 = Kdeg * (nB63.lon - s.lon) :=
    nodeDist_equator_pos s nB63 hlat rfl (by rw [hlon, nB63_lon]; norm_num)
      (by rw [hlon, nB63_lon]; norm_num)
  apply round6_lt
  rw [hd, hlon, nB63_lon, Kdeg]
  nlinarith [pi_lt_d6]

/-- Pass-2 leading distance `A → sT1` rounds to exactly `0.333333` km,
strictly below `1/3`. -/
lemma round6_dAsT1 : round6 (nodeDist nA sT1) = 333333 / 1000000 := by
  have hd : nodeDist nA sT1 = Kdeg * (sT1.lon - nA.lon) :=
    nodeDist_equator_pos nA sT1 rfl sT1_lat (by rw [nA_lon, sT1_lon]; norm_num)
      (by rw [nA_lon, sT1_lon]; norm_num)
  have h1 : ((333333 : ℤ) : ℝ) - 1 / 2 < nodeDist nA sT1 * 1000000 := by
    rw [hd, nA_lon, sT1_lon, Kdeg]
    push_cast
    nlinarith [pi_gt_d6]
  have h2 : nodeDist nA sT1 * 1000000 < ((333333 : ℤ) : ℝ) + 1 / 2 := by
    rw [hd, nA_lon, sT1_lon, Kdeg]
    push_cast
    nlinarith [pi_lt_d6]
  rw [round6_pin 333333 h1 h2]
  norm_num

/-- Pass-2 leading distance `A → uT1` rounds to exactly `0.400000 = 2/5`
km, hitting the `==` branch of the loop exit. -/
lemma round6_dAuT1 : round6 (nodeDist nA uT1) = 400000 / 1000000 := by
  have hd : nodeDist nA uT1 = Kdeg * (uT1.lon - nA.lon) :=
    nodeDist_equator_pos nA uT1 rfl uT1_lat (by rw [nA_lon, uT1_lon]; norm_num)
      (by rw [nA_lon, uT1_lon]; norm_num)
  have h1 : ((400000 : ℤ) : ℝ) - 1 / 2 < nodeDist nA uT1 * 1000000 := by
    rw [hd, nA_lon, uT1_lon, Kdeg]
    push_cast
    nlinarith [pi_gt_d6]
  have h2 : nodeDist nA uT1 * 1000000 < ((400000 : ℤ) : ℝ) + 1 / 2 := by
    rw [hd, nA_lon, uT1_lon, Kdeg]
    push_cast
    nlinarith [pi_lt_d6]
  rw [round6_pin 400000 h1 h2]
  norm_num

/-- First pass of the resampler on `[A, B₃₆]` with `min_distance = 1/3`
km: the 0.400302 km leg is split once, 1/3 km out. -/
lemma C8_pass1 :
    Create_new_nodes_on_road 9 [nA, nB36] (1 / 3) 0 =
      some ([nA, sT1, nB36], 1) := by
  have hg1 : round6 (nodeDist nA nB36) > 1 / 3 := by
    rw [round6_dAB36]; norm_num
  have hg2 : round6 (nodeDist sT1 nB36) < 1 / 3 :=
    round6_mid36 sT1 sT1_lat sT1_lon
  have hT1ni : sT1 ∉ [nA] := not_mem_of_nid (by simp [sT1_nid, nA_nid])
  have hBni : nB36 ∉ [nA, sT1] :=
    not_mem_of_nid (by simp [nB36_nid, sT1_nid, nA_nid])
  show Create_new_nodes_on_road (8 + 1) [nA, nB36] (1 / 3) 0 = _
  rw [Create_new_nodes_on_road, resampleGo, pairLoop_gt hg1,
    appendIfNew_of_not_mem (List.not_mem_nil nA)]
  rw [show synthNode nB36 nA (1 / 3) (0 + 1) = sT1 from sT1_def.symm]
  rw [pairLoop_lt hg2, appendIfNew_of_not_mem (by simpa using hT1ni)]
  simp only [List.nil_append, List.cons_append, Option.some_bind, resampleGo,
    Option.map_some']
  rw [show [nA, nB36].getLast (by simp) = nB36 from rfl, if_neg hBni]

/-- Second pass on the first-pass output `[A, sT1, B₃₆]`: the leading
0.333333 km gap takes the `<` branch, which does not advance the cursor
past `sT1`, so the `A → B₃₆` pair is split a second time, regenerating
the same coordinates under the fresh global id `Generated Node 2`. -/
lemma C8_pass2 :
    Create_new_nodes_on_road 9 [nA, sT1, nB36] (1 / 3) 1 =
      some ([nA, sT2, nB36], 2) := by
  have hg1 : round6 (nodeDist nA sT1) < 1 / 3 := by
    rw [round6_dAsT1]; norm_num
  have hg2 : round6 (nodeDist nA nB36) > 1 / 3 := by
    rw [round6_dAB36]; norm_num
  have hg3 : round6 (nodeDist sT2 nB36) < 1 / 3 :=
    round6_mid36 sT2 sT2_lat sT2_lon
  have hT2ni : sT2 ∉ [nA] := not_mem_of_nid (by simp [sT2_nid, nA_nid])
  have hBni : nB36 ∉ [nA, sT2] :=
    not_mem_of_nid (by simp [nB36_nid, sT2_nid, nA_nid])
  show Create_new_nodes_on_road (8 + 1) [nA, sT1, nB36] (1 / 3) 1 = _
  rw [Create_new_nodes_on_road, resampleGo, pairLoop_lt hg1,
    appendIfNew_of_not_mem (List.not_mem_nil nA)]
  simp only [List.nil_append, Option.some_bind]
  rw [resampleGo, pairLoop_gt hg2, appendIfNew_of_mem (List.mem_singleton_self nA)]
  rw [show synthNode nB36 nA (1 / 3) (1 + 1) = sT2 from sT2_def.symm]
  rw [pairLoop_lt hg3, appendIfNew_of_not_mem hT2ni]
  simp only [List.cons_append, List.nil_append, Option.some_bind, resampleGo,
    Option.map_some']
  rw [show [nA, sT1, nB36].getLast (by simp) = nB36 from rfl, if_neg hBni]

/-- **C8 (counterexample).** Resampling is not idempotent: on the road
`[A(0,0), B(0,0.0036)]` (0.400302 km) with `min_distance = 1/3` km, the
first pass inserts one node 1/3 km out, leaving a leading gap that rounds
to 0.333333 km < 1/3; on the second pass the `<` exit branch does not
advance the cursor past that node, so the `A → B` pair is split again and
the regenerated node carries the fresh global id `Generated Node 2` —
the waypoint lists of `resample(resample(R,d),d)` and `resample(R,d)`
differ. -/
theorem C8_counterexample :
    ¬ (((Create_new_nodes_on_road 9 [nA, nB36] (1 / 3) 0).bind fun p =>
          Create_new_nodes_on_road 9 p.1 (1 / 3) p.2).map
            (fun p => p.1.map Node.nid) =
        (Create_new_nodes_on_road 9 [nA, nB36] (1 / 3) 0).map
          (fun p => p.1.map Node.nid)) := by
  intro h
  have hL : ((Create_new_nodes_on_road 9 [nA, nB36] (1 / 3) 0).bind fun p =>
      Create_new_nodes_on_road 9 p.1 (1 / 3) p.2) = some ([nA, sT2, nB36], 2) := by
    rw [C8_pass1, Option.some_bind]
    exact C8_pass2
  rw [hL, C8_pass1] at h
  simp only [Option.map_some', Option.some.injEq] at h
  have h2 : sT2.nid = sT1.nid := by
    simpa using congrArg (fun l => l.get? 1) h
  rw [sT2_nid, sT1_nid] at h2
  exact absurd h2 (by decide)

/-- First pass on `[A, B₆₃]` with `min_distance = 2/5` km: the 0.700528
km leg is split once, exactly 2/5 km out. -/
lemma C8_amd_pass1 :
    Create_new_nodes_on_road 9 [nA, nB63] (2 / 5) 0 =
      some ([nA, uT1, nB63], 1) := by
  have hg1 : round6 (nodeDist nA nB63) > 2 / 5 := by
    rw [round6_dAB63]; norm_num
  have hg2 : round6 (nodeDist uT1 nB63) < 2 / 5 :=
    round6_mid63 uT1 uT1_lat uT1_lon
  have hT1ni : uT1 ∉ [nA] := not_mem_of_nid (by simp [uT1_nid, nA_nid])
  have hBni : nB63 ∉ [nA, uT1] :=
    not_mem_of_nid (by simp [nB63_nid, uT1_nid, nA_nid])
  show Create_new_nodes_on_road (8 + 1) [nA, nB63] (2 / 5) 0 = _
  rw [Create_new_nodes_on_road, resampleGo, pairLoop_gt hg1,
    appendIfNew_of_not_mem (List.not_mem_nil nA)]
  rw [show synthNode nB63 nA (2 / 5) (0 + 1) = uT1 from uT1_def.symm]
  rw [pairLoop_lt hg2, appendIfNew_of_not_mem (by simpa using hT1ni)]
  simp only [List.nil_append, List.cons_append, Option.some_bind, resampleGo,
    Option.map_some']
  rw [show [nA, nB63].getLast (by simp) = nB63 from rfl, if_neg hBni]

/-- Second pass on `[A, uT1, B₆₃]`: the leading gap rounds to exactly
`0.400000 = 2/5` km, the `==` exit branch advances the cursor onto `uT1`
without synthesizing, and the output list and counter are unchanged. -/
lemma C8_amd_pass2 :
    Create_new_nodes_on_road 9 [nA, uT1, nB63] (2 / 5) 1 =
      some ([nA, uT1, nB63], 1) := by
  have hg1 : round6 (nodeDist nA uT1) = 2 / 5 := by
    rw [round6_dAuT1]; norm_num
  have hg2 : round6 (nodeDist uT1 nB63) < 2 / 5 :=
    round6_mid63 uT1 uT1_lat uT1_lon
  have hBni : nB63 ∉ [nA, uT1] :=
    not_mem_of_nid (by simp [nB63_nid, uT1_nid, nA_nid])
  show Create_new_nodes_on_road (8 + 1) [nA, uT1, nB63] (2 / 5) 1 = _
  rw [Create_new_nodes_on_road, resampleGo, pairLoop_eq_min hg1,
    appendIfNew_of_not_mem (List.not_mem_nil nA)]
  simp only [List.nil_append, List.cons_append, Option.some_bind]
  rw [resampleGo, pairLoop_lt hg2,
    appendIfNew_of_mem (show uT1 ∈ [nA, uT1] by simp)]
  simp only [Option.some_bind, resampleGo, Option.map_some']
  rw [show [nA, uT1, nB63].getLast (by simp) = nB63 from rfl, if_neg hBni]
  simp only [List.cons_append, List.singleton_append, List.nil_append]

/-- **C8 (amended instance).** Idempotence does hold when the first pass
leaves gaps that the rounded comparison classifies as `== min_distance`
or places the cursor past every remaining original: on `[A(0,0),
B(0,0.0063)]` with `min_distance = 2/5` km, the regenerated leading gap
rounds to exactly 2/5, the `==` branch advances the cursor, and the
second pass returns the first pass's output (and counter) unchanged. -/
theorem C8_idempotent_instance :
    ((Create_new_nodes_on_road 9 [nA, nB63] (2 / 5) 0).bind fun p =>
        Create_new_nodes_on_road 9 p.1 (2 / 5) p.2) =
      Create_new_nodes_on_road 9 [nA, nB63] (2 / 5) 0 := by
  rw [C8_amd_pass1, Option.some_bind]
  exact C8_amd_pass2

/-! ## Endpoint and spacing behaviour of the resampler (C1) -/

/-- Waypoint `P(60, -90)` of road `W`. -/
noncomputable def cP : Node := ⟨"W", "A", 60, -90⟩

/-- Waypoint `Q(60, 90)` of road `W`, half a turn of longitude east along
the 60° parallel (great-circle distance `6371·π/3 ≈ 6671.7` km). -/
noncomputable def cQ : Node := ⟨"W", "B", 60, 90⟩

/-- The synthetic node placed 5800 km along the degree-space chord from
`P` toward `Q`. -/
noncomputable def cS1 : Node := synthNode cQ cP 5800 1

lemma cS1_def : cS1 = synthNode cQ cP 5800 1 := rfl

lemma cP_lon : cP.lon = -90 := rfl

lemma cQ_lon : cQ.lon = 90 := rfl

lemma cP_nid : cP.nid = "A" := rfl

lemma cQ_nid : cQ.nid = "B" := rfl

lemma cS1_nid : cS1.nid = "Generated Node 1" := by
  rw [cS1_def, synthNode_nid]; decide

/-- `P → Q` along the 60° parallel: half a turn of longitude gives
`2·R·arcsin((1/2)·sin(π/2)) = 2·R·arcsin(1/2) = 6371·π/3`. -/
lemma dPQ_eq : nodeDist cP cQ = 6371 * π / 3 := by
  rw [nodeDist_lat60 cP cQ rfl rfl (by rw [cP_lon, cQ_lon]; norm_num)
    (by rw [cP_lon, cQ_lon]; norm_num)]
  have h1 : (cQ.lon - cP.lon) * π / 360 = π / 2 := by
    rw [cP_lon, cQ_lon]; ring
  have h2 : (1 : ℝ) / 2 * Real.sin (π / 2) = Real.sin (π / 6) := by
    rw [Real.sin_pi_div_two, Real.sin_pi_div_six]; norm_num
  have hπ : (0 : ℝ) < π := pi_pos
  rw [h1, h2, Real.arcsin_sin (by linarith) (by linarith)]
  ring

/-- Numeric window for the `P → Q` distance. -/
lemma dPQ_window : 6671.6942 < nodeDist cP cQ ∧ nodeDist cP cQ < 6671.6964 := by
  rw [dPQ_eq]
  constructor
  · nlinarith [pi_gt_d6]
  · nlinarith [pi_lt_d6]

lemma rPQ_window : 6671.6941 < round6 (nodeDist cP cQ) ∧
    round6 (nodeDist cP cQ) < 6671.6965 :=
  round6_window dPQ_window (by norm_num) (by norm_num)

lemma rPQ_gt : round6 (nodeDist cP cQ) > 5800 :=
  round6_gt (lt_of_le_of_lt (by norm_num) dPQ_window.1)

lemma cS1_facts : cS1.lat = cP.lat ∧ cS1.lon =
    cP.lon + 5800 / round6 (nodeDist cP cQ) * (cQ.lon - cP.lon) := by
  rw [cS1_def, synthNode_parallel cQ cP 5800 1 rfl]
  exact ⟨rfl, rfl⟩

lemma cS1_lat : cS1.lat = 60 := cS1_facts.1.trans rfl

/-- Longitude window for the synthetic node: ≈ 66.482°, about 156.48° of
the 180° of longitude from `P` toward `Q`. -/
lemma cS1_lon_window : 66.4817 < cS1.lon ∧ cS1.lon < 66.4822 := by
  have hu : 0.869343 < 5800 / round6 (nodeDist cP cQ) ∧
      5800 / round6 (nodeDist cP cQ) < 0.869345 :=
    div_window rPQ_window (by norm_num) (by norm_num) (by norm_num)
      (by norm_num) (by norm_num)
  rw [cS1_facts.2, cP_lon, cQ_lon]
  constructor <;> nlinarith [hu.1, hu.2]

/-- The first output gap `P → cS1` exceeds 6200 km: linear interpolation
in degree space badly overshoots the requested 5800 km of arc length at
this latitude, because equal longitude steps near the chord's middle
cover more arc than at its ends. -/
lemma gap_PS1_gt : 6200 < nodeDist cP cS1 := by
  have hlon := cS1_lon_window
  have hd : nodeDist cP cS1 =
      2 * 6371 * arcsin (1 / 2 * Real.sin ((cS1.lon - cP.lon) * π / 360)) :=
    nodeDist_lat60 cP cS1 rfl cS1_lat (by rw [cP_lon]; linarith [hlon.1])
      (by rw [cP_lon]; linarith [hlon.2])
  set t : ℝ := (cS1.lon - cP.lon) * π / 360 with ht
  have hteq : π / 2 - t = (90 - cS1.lon) * π / 360 := by
    rw [ht, cP_lon]; ring
  have hv : 0 < π / 2 - t ∧ π / 2 - t < 0.206 := by
    rw [hteq]
    constructor
    · exact div_pos (mul_pos (by linarith [hlon.2]) pi_pos) (by norm_num)
    · have ha : 90 - cS1.lon < 23.5183 := by linarith [hlon.1]
      have hb : (0 : ℝ) < 90 - cS1.lon := by linarith [hlon.2]
      nlinarith [pi_lt_d6, pi_gt_d6]
  have hu2 : (π / 2 - t) ^ 2 < 0.0425 := by nlinarith [hv.1, hv.2]
  have hcos : (0.978 : ℝ) ≤ Real.sin t := by
    have h1 : (1 : ℝ) - (π / 2 - t) ^ 2 / 2 ≤ Real.cos (π / 2 - t) :=
      Real.one_sub_sq_div_two_le_cos
    rw [Real.cos_pi_div_two_sub] at h1
    linarith [h1, hu2]
  have hsle : Real.sin t ≤ 1 := Real.sin_le_one t
  have harc : 1 / 2 * Real.sin t ≤ arcsin (1 / 2 * Real.sin t) :=
    self_le_arcsin (by linarith) (by linarith)
  rw [hd]
  nlinarith [harc, hcos]

/-- The remaining `cS1 → Q` distance (≈ 1300 km) rounds below 5800. -/
lemma rS1Q_lt : round6 (nodeDist cS1 cQ) < 5800 := by
  have hlon := cS1_lon_window
  have hd : nodeDist cS1 cQ =
      2 * 6371 * arcsin (1 / 2 * Real.sin ((cQ.lon - cS1.lon) * π / 360)) :=
    nodeDist_lat60 cS1 cQ cS1_lat rfl (by rw [cQ_lon]; linarith [hlon.2])
      (by rw [cQ_lon]; linarith [hlon.1])
  set t : ℝ := (cQ.lon - cS1.lon) * π / 360 with ht
  have hv : 0 < t ∧ t < 0.206 := by
    rw [ht, cQ_lon]
    constructor
    · exact div_pos (mul_pos (by linarith [hlon.2]) pi_pos) (by norm_num)
    · have ha : 90 - cS1.lon < 23.5183 := by linarith [hlon.1]
      have hb : (0 : ℝ) < 90 - cS1.lon := by linarith [hlon.2]
      nlinarith [pi_lt_d6, pi_gt_d6]
  have hs0 : 0 ≤ Real.sin t :=
    Real.sin_nonneg_of_nonneg_of_le_pi hv.1.le (by nlinarith [pi_gt_d6, hv.2])
  have hslt : Real.sin t < t := Real.sin_lt hv.1
  have hs45 : (0.427 : ℝ) < Real.sin 0.45 := by
    have h3 := Real.sin_gt_sub_cube (by norm_num : (0 : ℝ) < 0.45)
      (by norm_num : (0.45 : ℝ) ≤ 1)
    nlinarith [h3]
  have hmono : arcsin (1 / 2 * Real.sin t) ≤ arcsin (Real.sin 0.45) := by
    apply Real.monotone_arcsin
    nlinarith [hslt, hv.2, hs45]
  have hasin : arcsin (Real.sin 0.45) = 0.45 := by
    apply Real.arcsin_sin
    · nlinarith [pi_gt_d6]
    · nlinarith [pi_gt_d6]
  rw [hasin] at hmono
  apply round6_lt
  rw [hd]
  linarith [hmono]

/-- One pass of the resampler on `[P, Q]` with `min_distance = 5800` km:
one synthetic node is inserted, then the loop exits and the final guard
appends `Q`. -/
lemma C1_trace :
    Create_new_nodes_on_road 9 [cP, cQ] 5800 0 = some ([cP, cS1, cQ], 1) := by
  have hg1 : round6 (nodeDist cP cQ) > 5800 := rPQ_gt
  have hg2 : round6 (nodeDist cS1 cQ) < 5800 := rS1Q_lt
  have hS1ni : cS1 ∉ [cP] := not_mem_of_nid (by simp [cS1_nid, cP_nid])
  have hQni : cQ ∉ [cP, cS1] :=
    not_mem_of_nid (by simp [cQ_nid, cS1_nid, cP_nid])
  show Create_new_nodes_on_road (8 + 1) [cP, cQ] 5800 0 = _
  rw [Create_new_nodes_on_road, resampleGo, pairLoop_gt hg1,
    appendIfNew_of_not_mem (List.not_mem_nil cP)]
  rw [show synthNode cQ cP 5800 (0 + 1) = cS1 from cS1_def.symm]
  rw [pairLoop_lt hg2, appendIfNew_of_not_mem (by simpa using hS1ni)]
  simp only [List.nil_append, List.cons_append, Option.some_bind, resampleGo,
    Option.map_some']
  rw [show [cP, cQ].getLast (by simp) = cQ from rfl, if_neg hQni]

/-- **C1 (counterexample).** The claimed consecutive-spacing bound fails:
on the road `[P(60,-90), Q(60,90)]` with `min_distance = 5800` km (the
original pair is ≈ 6671.7 km apart, so the no-splitting exception does
not apply), the resampler inserts one node by linear interpolation in
*degree* space, and the first output gap `P → cS1` is over 6200 km —
beyond the requested 5800 km even with a 1 km floating tolerance. -/
theorem C1_counterexample :
    ¬ (∀ (l : List Node) (c : ℕ),
        Create_new_nodes_on_road 9 [cP, cQ] 5800 0 = some (l, c) →
        l.Chain' (fun a b => nodeDist a b ≤ 5801)) := by
  intro h
  have hch := h _ _ C1_trace
  rw [List.chain'_cons] at hch
  linarith [hch.1, gap_PS1_gt]

/-- Evaluation of the resampler on a one-waypoint road: the loop body is
never entered and the final guard appends the single waypoint. -/
lemma Create_singleton (fuel : ℕ) (m : ℝ) (cnt : ℕ) (n : Node) :
    Create_new_nodes_on_road fuel [n] m cnt = some ([n], cnt) := by
  rw [Create_new_nodes_on_road]
  simp only [resampleGo, Option.map_some']
  rw [show ([n] : List Node).getLast (by simp) = n from rfl,
    if_neg (List.not_mem_nil n)]
  rfl

lemma head_append_of_ne_nil {l l' : List Node} (h : l ≠ []) :
    (l ++ l').head? = l.head? := by
  cases l with
  | nil => exact absurd rfl h
  | cons a t => rfl

lemma appendIfNew_ne_nil (upd : List Node) (n : Node) :
    appendIfNew upd n ≠ [] := by
  by_cases h : n ∈ upd
  · rw [appendIfNew_of_mem h]
    exact List.ne_nil_of_mem h
  · rw [appendIfNew_of_not_mem h]
    simp

lemma appendIfNew_head (upd : List Node) (n : Node) :
    (appendIfNew upd n).head? = (upd ++ [n]).head? := by
  by_cases h : n ∈ upd
  · rw [appendIfNew_of_mem h,
      head_append_of_ne_nil (List.ne_nil_of_mem h)]
  · rw [appendIfNew_of_not_mem h]

/-- The `while` loop only ever appends on the right of an updated-node
list that starts with the incoming cursor, so the head of its output list
is the head of `upd ++ [cur]`. -/
lemma pairLoop_head (m : ℝ) (endn : Node) (fuel : ℕ) : ∀ (cur : Node)
    (upd : List Node) (cnt : ℕ) (s : Node × List Node × ℕ),
    pairLoop m endn fuel cur upd cnt = some s →
    s.2.1.head? = (upd ++ [cur]).head? := by
  induction fuel with
  | zero =>
      intro cur upd cnt s h
      rw [pairLoop] at h
      by_cases hg : round6 (nodeDist cur endn) > m
      · rw [if_pos hg] at h
        exact absurd h (by simp)
      · rw [if_neg hg, Option.some.injEq] at h
        subst h
        rw [pairExit]
        by_cases hlt : round6 (nodeDist cur endn) < m
        · rw [if_pos hlt]
          exact appendIfNew_head upd cur
        · rw [if_neg hlt]
          show (appendIfNew upd cur ++ [endn]).head? = (upd ++ [cur]).head?
          rw [head_append_of_ne_nil (appendIfNew_ne_nil upd cur)]
          exact appendIfNew_head upd cur
  | succ n ih =>
      intro cur upd cnt s h
      rw [pairLoop] at h
      by_cases hg : round6 (nodeDist cur endn) > m
      · rw [if_pos hg] at h
        have hih := ih _ _ _ _ h
        rw [hih, head_append_of_ne_nil (appendIfNew_ne_nil upd cur)]
        exact appendIfNew_head upd cur
      · rw [if_neg hg, Option.some.injEq] at h
        subst h
        rw [pairExit]
        by_cases hlt : round6 (nodeDist cur endn) < m
        · rw [if_pos hlt]
          exact appendIfNew_head upd cur
        · rw [if_neg hlt]
          show (appendIfNew upd cur ++ [endn]).head? = (upd ++ [cur]).head?
          rw [head_append_of_ne_nil (appendIfNew_ne_nil upd cur)]
          exact appendIfNew_head upd cur

/-- The per-pair loop of the resampler preserves the head of a nonempty
updated-node list. -/
lemma resampleGo_head (fuel : ℕ) (m : ℝ) (rest : List Node) : ∀ (cur : Node)
    (upd : List Node) (cnt : ℕ) (s : Node × List Node × ℕ), upd ≠ [] →
    resampleGo fuel m cur upd cnt rest = some s →
    s.2.1.head? = upd.head? := by
  induction rest with
  | nil =>
      intro cur upd cnt s hne h
      rw [resampleGo, Option.some.injEq] at h
      subst h
      rfl
  | cons e r ih =>
      intro cur upd cnt s hne h
      rw [resampleGo] at h
      rcases h1 : pairLoop m e fuel cur upd cnt with _ | s1
      · rw [h1] at h
        exact absurd h (by simp)
      · rw [h1, Option.some_bind] at h
        have hh1 : s1.2.1.head? = (upd ++ [cur]).head? :=
          pairLoop_head m e fuel cur upd cnt s1 h1
        have hne1 : s1.2.1 ≠ [] := by
          intro hc
          rw [hc, head_append_of_ne_nil hne] at hh1
          cases upd with
          | nil => exact absurd rfl hne
          | cons a t => exact absurd hh1 (by simp)
        have hh := ih s1.1 s1.2.1 s1.2.2 s hne1 h
        rw [hh, hh1, head_append_of_ne_nil hne]

/-- **C1 (amended).** What the resampler does guarantee about endpoints:
for every road and every `min_distance`, a successful run's output starts
with the road's first waypoint (the first cursor is appended before
anything else, and all later updates are right-appends); together with
the last-waypoint membership of C2, this is the true part of the
first/last claim, while the spacing bound is refuted above. -/
theorem C1_first_waypoint (nodes : List Node) (h : nodes ≠ [])
    (fuel : ℕ) (m : ℝ) (cnt : ℕ) (l : List Node) (c : ℕ)
    (heq : Create_new_nodes_on_road fuel nodes m cnt = some (l, c)) :
    l.head? = some (nodes.head h) := by
  cases nodes with
  | nil => exact absurd rfl h
  | cons n0 rest =>
      cases rest with
      | nil =>
          rw [Create_singleton fuel m cnt n0, Option.some.injEq] at heq
          have hl : ([n0] : List Node) = l := congrArg Prod.fst heq
          rw [← hl]
          rfl
      | cons e r =>
          rw [Create_new_nodes_on_road] at heq
          rcases hmap : resampleGo fuel m n0 [] cnt (e :: r) with _ | s
          · rw [hmap] at heq
            simp at heq
          · rw [hmap, Option.map_some', Option.some.injEq] at heq
            rw [resampleGo] at hmap
            rcases hp : pairLoop m e fuel n0 [] cnt with _ | s1
            · rw [hp] at hmap
              exact absurd hmap (by simp)
            · rw [hp, Option.some_bind] at hmap
              have hh1 : s1.2.1.head? = (([] : List Node) ++ [n0]).head? :=
                pairLoop_head m e fuel n0 [] cnt s1 hp
              have hne1 : s1.2.1 ≠ [] := by
                intro hc
                rw [hc] at hh1
                exact absurd hh1 (by simp)
              have hh : s.2.1.head? = s1.2.1.head? :=
                resampleGo_head fuel m r s1.1 s1.2.1 s1.2.2 s hne1 hmap
              have hsne : s.2.1 ≠ [] := by
                intro hc
                rw [hc, hh1] at hh
                exact absurd hh (by simp)
              by_cases hin : (n0 :: e :: r).getLast (by simp) ∈ s.2.1
              · rw [if_pos hin] at heq
                have hl : s.2.1 = l := congrArg Prod.fst heq
                rw [← hl, hh, hh1]
                rfl
              · rw [if_neg hin] at heq
                have hl : s.2.1 ++ [(n0 :: e :: r).getLast (by simp)] = l :=
                  congrArg Prod.fst heq
                rw [← hl, head_append_of_ne_nil hsne, hh, hh1]
                rfl

/-- Witness for C1 at the singleton road `[P]`. -/
theorem C1_witness : (([cP] : List Node) ≠ []) ∧
    ([cP] : List Node).head? = some (([cP] : List Node).head (by simp)) :=
  ⟨by simp, C1_first_waypoint [cP] (by simp) 0 5800 0 [cP] 0
    (Create_singleton 0 5800 0 cP)⟩

end Overpass
